import Mathlib

/-!
Verification of the movie_data_builder enrichment engine.

Python strings are modelled as `List Char` (`PyStr`); Python dicts as
association lists with last-write-wins insert; the behaviour of the
modules under `src/` is translated function by function:

* `strip_code_fences`, `parse_llm_output_to_dict`  — data_providers/llm_clients.py
* `deduplicate_and_normalize_relationships`        — enrichers/character_enricher.py
* the recommendations transformer                  — enrichers/analytical_enricher.py
* the TMDB search candidate selection              — data_providers/tmdb_api.py
* `should_update_field_local`, the enricher-group
  gates, final `MovieEntry` validation and the
  per-candidate persist step                       — main_orchestrator.py, models/movie_models.py
-/

namespace MovieData

/-- A Python `str`, modelled as its list of characters. -/
abbrev PyStr := List Char

/-- ASCII whitespace, matching Python's `str.strip()` / `\s` on ASCII input:
space, tab, newline, carriage return, vertical tab, form feed. -/
def isWS (c : Char) : Bool :=
  c = ' ' || c = '\t' || c = '\n' || c = '\r' || c = Char.ofNat 11 || c = Char.ofNat 12

/-- The backquote character (code point 96), used by code-fence markup. -/
def tick : Char := Char.ofNat 96

/-- Strip leading whitespace (Python `str.lstrip()`). -/
def trimL (s : PyStr) : PyStr := s.dropWhile isWS

/-- Strip trailing whitespace (Python `str.rstrip()`). -/
def trimR (s : PyStr) : PyStr := s.rdropWhile isWS

/-- Strip both ends (Python `str.strip()`). -/
def pyTrim (s : PyStr) : PyStr := trimR (trimL s)

/-! ### strip_code_fences (data_providers/llm_clients.py, lines 8-57) -/
/-- The three-backquote fence marker. -/
def ticks3 : PyStr := [tick, tick, tick]

/-- Python `text.startswith("\x60\x60\x60")`. -/
def startsWithTicks (s : PyStr) : Bool := ticks3.isPrefixOf s

/-- Python `text.endswith("\x60\x60\x60")`. -/
def endsWithTicks (s : PyStr) : Bool := ticks3.isSuffixOf s

/-- Python `text[:-3]` for the three-character fence suffix. -/
def dropLast3 (s : PyStr) : PyStr := s.take (s.length - 3)

/-- A character of the regex class `[a-zA-Z0-9\-_]` (language-tag characters). -/
def isWordChar (c : Char) : Bool :=
  ('a' ≤ c && c ≤ 'z') || ('A' ≤ c && c ≤ 'Z') || ('0' ≤ c && c ≤ '9') || c = '-' || c = '_'

/-- The regex step of `strip_code_fences`: Python's
`re.match(r"^\s*(3 ticks)(?:[a-zA-Z0-9\-_]+)?\s*(.*?)\s*(3 ticks)\s*$", text, DOTALL)`,
returning `group(1).strip()` on a match.  The backtracking semantics compile to:
skip leading whitespace, require an opening fence; the overall match succeeds
exactly when, after the opening fence, the text right-stripped of whitespace
still ends in a closing fence (the lazy group `(.*?)` can absorb anything
else); the greedy optional language tag and the following `\s*` fix the
group's start, and the lazy group ends where the trailing `\s*(3 ticks)\s*$`
begins. -/
def fenceInner (t : PyStr) : Option PyStr :=
  let r1 := trimL t
  if startsWithTicks r1 then
    let rest := r1.drop 3
    let tr := trimR rest
    if endsWithTicks tr then
      let body := dropLast3 tr
      let lang := rest.takeWhile isWordChar
      let p := lang.length + ((rest.drop lang.length).takeWhile isWS).length
      some (pyTrim (body.drop p))
    else none
  else none

/-- The fallback inside `strip_code_fences` for text starting with an
unterminated fence: Python removes the opening three backquotes, then — when a
newline exists and the first line strips to a short (`< 10`) run of
language-tag characters — removes that line, and finally strips whitespace.
The argument is the text after `text[3:]`. -/
def openFenceFallback (r : PyStr) : PyStr :=
  match r.findIdx? (fun c => c = '\n') with
  | none => pyTrim r
  | some i =>
    let firstLine := pyTrim (r.take i)
    if firstLine ≠ [] ∧ firstLine.all isWordChar ∧ firstLine.length < 10 then
      pyTrim (r.drop (i + 1))
    else pyTrim r

/-- The final fallback of the loop body: drop a leading `json`/`yaml` marker
followed by a newline or a space (case-insensitive), then strip. -/
def jsonYamlPrefixDrop (t : PyStr) : PyStr :=
  if (t.take 5).map Char.toLower = "json\n".toList ∨
     (t.take 5).map Char.toLower = "yaml\n".toList then pyTrim (t.drop 5)
  else if (t.take 5).map Char.toLower = "json ".toList ∨
          (t.take 5).map Char.toLower = "yaml ".toList then pyTrim (t.drop 5)
  else t

/-- First fallback: `if text.startswith(fence): ...` (removes the opening
fence and a possible language line, then strips). -/
def openFencePart (t : PyStr) : PyStr :=
  if startsWithTicks t then openFenceFallback (t.drop 3) else t

/-- Second fallback: `if text.endswith(fence): text = text[:-3].strip()`. -/
def closeFencePart (t : PyStr) : PyStr :=
  if endsWithTicks t then pyTrim (dropLast3 t) else t

/-- One iteration of the `while text != previous_text` loop of
`strip_code_fences`: the regex match (with `continue` on success, so the
fallbacks are skipped), else the three fallbacks in sequence followed by the
final `text.strip()`. -/
def stripStep (t : PyStr) : PyStr :=
  (fenceInner t).getD (pyTrim (jsonYamlPrefixDrop (closeFencePart (openFencePart t))))

/-- Fuelled fixed-point iteration of `stripStep` (the `while` loop). -/
def stripLoop : Nat → PyStr → PyStr
  | 0, t => t
  | n + 1, t => if stripStep t = t then t else stripLoop n (stripStep t)

/-- `strip_code_fences(raw_text)`: empty input maps to the empty string,
otherwise the loop iterates from `raw_text.strip()` to a fixed point.  The
fuel `length + 1` is enough because every changing iteration shortens the
text (proved below). -/
def strip_code_fences (raw : PyStr) : PyStr :=
  if raw = [] then []
  else
    let t0 := pyTrim raw
    stripLoop (t0.length + 1) t0

/-! ### parse_llm_output_to_dict (data_providers/llm_clients.py, lines 60-104) -/
/-- A Python value as produced by `json.loads` / `yaml.safe_load`. -/
inductive PyValue where
  | vnone
  | vbool (b : Bool)
  | vint (n : Int)
  | vstr (s : PyStr)
  | vlist (xs : List PyValue)
  | vdict (kvs : List (PyStr × PyValue))

instance : Inhabited PyValue := ⟨PyValue.vnone⟩

/-- A parsed key-value mapping (a Python `dict`). -/
abbrev PyDict := List (PyStr × PyValue)

/-- `parse_llm_output_to_dict`, parameterised by the two library parsers
(`json.loads` and `yaml.safe_load`); `none` models a raised parse error.
Mirrors the source: empty input returns `None`; the input is fence-stripped
and an empty result returns `None`; a successful strict-JSON parse to a dict
returns it, any other JSON outcome falls through to YAML; a successful YAML
parse to a dict returns it; every other outcome returns `None`. -/
def parse_llm_output_to_dict (jsonLoads yamlLoads : PyStr → Option PyValue)
    (response_content : PyStr) : Option PyDict :=
  if response_content = [] then none
  else
    let cleaned := strip_code_fences response_content
    if cleaned = [] then none
    else
      match jsonLoads cleaned with
      | some (PyValue.vdict m) => some m
      | _ =>
        match yamlLoads cleaned with
        | some (PyValue.vdict m) => some m
        | _ => none

/-! ### deduplicate_and_normalize_relationships
(enrichers/character_enricher.py, lines 183-244; models/movie_models.py) -/
/-- Python `str.lower()` (ASCII case folding). -/
def pyLower (s : PyStr) : PyStr := s.map Char.toLower

/-- `CharacterListItem` (models/movie_models.py, lines 90-97). -/
structure CharacterListItem where
  name : PyStr
  actor_name : PyStr
  tmdb_person_id : Option Int
  description : PyStr
  group : PyStr
  aliases : Option (List PyStr)
  image_file : Option PyStr
deriving DecidableEq

/-- `Relationship` (models/movie_models.py, lines 99-121). -/
structure Relationship where
  source : PyStr
  target : PyStr
  type : PyStr
  directed : Bool
  description : PyStr
  sentiment : PyStr
  strength : Int
  tense : PyStr
deriving DecidableEq

/-- The `sentiment` field validator of `Relationship`. -/
def sentimentValid (s : PyStr) : Bool :=
  s = "positive".toList || s = "negative".toList || s = "neutral".toList ||
    s = "complicated".toList

/-- The `tense` field validator of `Relationship`. -/
def tenseValid (s : PyStr) : Bool :=
  s = "past".toList || s = "present".toList || s = "evolving".toList

/-- `Relationship.model_validate` on a dumped-and-edited relationship dict:
re-checks the `strength` bounds and the `sentiment`/`tense` validators;
failure raises (modelled as `none`). -/
def validateRelationship (r : Relationship) : Option Relationship :=
  if 1 ≤ r.strength ∧ r.strength ≤ 5 ∧ sentimentValid r.sentiment = true ∧
      tenseValid r.tense = true then some r
  else none

/-- The `name_map` dict: an association list where the most recent assignment
comes first (Python dict assignment overwrites). -/
abbrev NameMap := List (PyStr × PyStr)

/-- Python `name_map[k] = v`. -/
def dictSet (m : NameMap) (k v : PyStr) : NameMap := (k, v) :: m

/-- Python `name_map.get(k)`. -/
def dictGet (m : NameMap) (k : PyStr) : Option PyStr :=
  (m.find? (fun kv => kv.1 = k)).map (fun kv => kv.2)

/-- One iteration of the name-map construction loop: register the character's
canonical (stripped, non-empty) name under its lowercase form, then each
non-empty stripped alias under its lowercase form, all mapping to the
canonical name. -/
def addCharToMap (m : NameMap) (c : CharacterListItem) : NameMap :=
  if pyTrim c.name ≠ [] then
    let m1 := dictSet m (pyLower (pyTrim c.name)) (pyTrim c.name)
    match c.aliases with
    | none => m1
    | some als =>
      als.foldl
        (fun acc a =>
          if pyTrim a ≠ [] then dictSet acc (pyLower (pyTrim a)) (pyTrim c.name) else acc)
        m1
  else m

/-- The full `name_map` built from the character roster. -/
def buildNameMap (roster : List CharacterListItem) : NameMap :=
  roster.foldl addCharToMap []

/-- Python truthiness of `name_map.get(...)`: `None` and the empty string are
both falsy (`if not source_norm or not target_norm`). -/
def truthy (o : Option PyStr) : Option PyStr :=
  match o with
  | some [] => none
  | x => x

/-- Python string `<=` (lexicographic on code points), as used by `sorted`. -/
def pyStrLe : PyStr → PyStr → Bool
  | [], _ => true
  | _ :: _, [] => false
  | a :: xs, b :: ys =>
    if a.toNat < b.toNat then true
    else if b.toNat < a.toNat then false
    else pyStrLe xs ys

/-- Python `tuple(sorted((a, b)))` for two strings. -/
def sortPair (a b : PyStr) : PyStr × PyStr :=
  if pyStrLe a b then (a, b) else (b, a)

/-- One iteration of the deduplication loop of
`deduplicate_and_normalize_relationships`: trim and resolve both endpoints,
drop the edge on an empty or unknown endpoint or a self-edge, compute the
unordered `pair_key`, skip if seen, otherwise mark the key seen and append
the re-validated edge with canonicalised endpoints (a re-validation error
only skips the append). -/
def dedupAccept (st : List (PyStr × PyStr) × List Relationship) (rel : Relationship)
    (s t : PyStr) : List (PyStr × PyStr) × List Relationship :=
  if s = t then st
  else if sortPair (pyLower s) (pyLower t) ∈ st.1 then st
  else
    match validateRelationship { rel with source := s, target := t } with
    | some r => (sortPair (pyLower s) (pyLower t) :: st.1, st.2 ++ [r])
    | none => (sortPair (pyLower s) (pyLower t) :: st.1, st.2)

def dedupStep (nm : NameMap) (st : List (PyStr × PyStr) × List Relationship)
    (rel : Relationship) : List (PyStr × PyStr) × List Relationship :=
  if pyTrim rel.source = [] ∨ pyTrim rel.target = [] then st
  else
    match truthy (dictGet nm (pyLower (pyTrim rel.source))),
        truthy (dictGet nm (pyLower (pyTrim rel.target))) with
    | some s, some t => dedupAccept st rel s t
    | _, _ => st

/-- `deduplicate_and_normalize_relationships` (lines 183-244).  An empty
roster returns the raw edges (`relationships_data_from_llm or []` equals the
raw list in both cases); empty raw edges return `[]`; an empty name map
returns the raw edges; otherwise the deduplication loop runs with empty
`seen_pairs` and accumulator. -/
def deduplicate_and_normalize_relationships (roster : List CharacterListItem)
    (rels : List Relationship) : List Relationship :=
  if roster = [] then rels
  else if rels = [] then []
  else if buildNameMap roster = [] then rels
  else (rels.foldl (dedupStep (buildNameMap roster)) ([], [])).2

/-- `s` is the canonical (stripped, non-empty) name of a roster character. -/
def isCanonicalName (roster : List CharacterListItem) (s : PyStr) : Prop :=
  ∃ c ∈ roster, pyTrim c.name = s ∧ s ≠ []

/-- Both edges connect the same unordered pair of characters. -/
def SamePair (e₁ e₂ : Relationship) : Prop :=
  (e₁.source = e₂.source ∧ e₁.target = e₂.target) ∨
    (e₁.source = e₂.target ∧ e₁.target = e₂.source)

/-- The `pair_key` of an edge. -/
def edgeKey (e : Relationship) : PyStr × PyStr := sortPair (pyLower e.source) (pyLower e.target)

/-- The invariant maintained by the deduplication fold: every accumulated
edge is canonical, non-self, has its `pair_key` in `seen_pairs`, and no two
accumulated edges connect the same unordered pair. -/
def DedupInv (roster : List CharacterListItem)
    (st : List (PyStr × PyStr) × List Relationship) : Prop :=
  (∀ e ∈ st.2, isCanonicalName roster e.source ∧ isCanonicalName roster e.target ∧
    e.source ≠ e.target) ∧
  (∀ e ∈ st.2, edgeKey e ∈ st.1) ∧
  st.2.Pairwise (fun e₁ e₂ => ¬ SamePair e₁ e₂)

/-! ### TMDB search candidate selection (data_providers/tmdb_api.py, lines 46-96) -/
/-- One entry of the TMDB search `results` list (the fields the selection
reads; a missing `title` defaults to the empty string via `result.get`). -/
structure TMDBResult where
  id : Int
  title : PyStr
  release_date : Option PyStr
deriving DecidableEq

/-- `result.get("release_date", "N/A")[:4]`. -/
def resultYear (r : TMDBResult) : PyStr := (r.release_date.getD "N/A".toList).take 4

/-- `result.get("title", "").lower()`. -/
def resultTitleLower (r : TMDBResult) : PyStr := pyLower r.title

/-- A digit character, for Python's `str.isdigit()` on ASCII input. -/
def isDigitChar (c : Char) : Bool := '0' ≤ c && c ≤ '9'

/-- Python `s.isdigit()` (empty strings are not digits). -/
def pyIsDigit (s : PyStr) : Bool := !s.isEmpty && s.all isDigitChar

/-- The year-hint validation of `search_tmdb_for_movie_id` (lines 57-62):
`str(year).strip()` must be exactly four digits, otherwise no year is used. -/
def validatedYear (year : Option PyStr) : Option PyStr :=
  match year with
  | none => none
  | some y =>
    if pyIsDigit (pyTrim y) ∧ (pyTrim y).length = 4 then some (pyTrim y) else none

/-- First selection rule: the queried year matches and the title matches
case-insensitively (loop line 78; assigns and breaks). -/
def tmdbTier1 (q : PyStr) (yq : Option PyStr) (r : TMDBResult) : Bool :=
  match yq with
  | some y => resultYear r = y && resultTitleLower r = q
  | none => false

/-- Second rule: exact case-insensitive title match (line 81). -/
def tmdbTier2 (q : PyStr) (r : TMDBResult) : Bool := resultTitleLower r = q

/-- Python `needle in hay` for strings. -/
def strIn (needle : PyStr) : PyStr → Bool
  | [] => needle.isEmpty
  | c :: rest => needle.isPrefixOf (c :: rest) || strIn needle rest

/-- Third rule: the queried year matches and the query title is a substring
of the result title (line 83). -/
def tmdbTier3 (q : PyStr) (yq : Option PyStr) (r : TMDBResult) : Bool :=
  match yq with
  | some y => resultYear r = y && strIn q (resultTitleLower r)
  | none => false

/-- The `for result in data["results"]` loop of `search_tmdb_for_movie_id`:
rule 1 assigns and breaks; rules 2 and 3 assign only while `best_match` is
still unset. -/
def selectLoop (q : PyStr) (yq : Option PyStr) :
    Option TMDBResult → List TMDBResult → Option TMDBResult
  | best, [] => best
  | best, r :: rest =>
    if tmdbTier1 q yq r then some r
    else
      selectLoop q yq
        (if best.isNone && (tmdbTier2 q r || tmdbTier3 q yq r) then some r else best) rest

/-- The candidate-selection portion of `search_tmdb_for_movie_id` (lines
72-91): run the loop with no `best_match`, then fall back to the first
result. -/
def pickBestResult (movie_title : PyStr) (year : Option PyStr)
    (results : List TMDBResult) : Option TMDBResult :=
  match selectLoop (pyLower movie_title) (validatedYear year) none results with
  | some b => some b
  | none => results.head?

/-! ### Field-update policy (main_orchestrator.py, lines 227-239, 286-441) -/
/-- `key_to_enricher_group_map` (lines 231-239), in source order. -/
def keyToEnricherGroupMap : List (PyStr × PyStr) :=
  [("character_profile".toList, "initial_data".toList),
   ("critical_reception".toList, "initial_data".toList),
   ("visual_style".toList, "initial_data".toList),
   ("most_talked_about_related_topic".toList, "initial_data".toList),
   ("complex_search_queries".toList, "initial_data".toList),
   ("sequel".toList, "initial_data".toList),
   ("prequel".toList, "initial_data".toList),
   ("spin_off_of".toList, "initial_data".toList),
   ("spin_off".toList, "initial_data".toList),
   ("remake_of".toList, "initial_data".toList),
   ("remake".toList, "initial_data".toList),
   ("character_list".toList, "characters_and_relations".toList),
   ("relationships".toList, "characters_and_relations".toList),
   ("character_profile_big5".toList, "analytical_data".toList),
   ("character_profile_myersbriggs".toList, "analytical_data".toList),
   ("genre_mix".toList, "analytical_data".toList),
   ("matching_tags".toList, "analytical_data".toList),
   ("recommendations".toList, "analytical_data".toList),
   ("imdb_id".toList, "fetch_imdb_ids".toList),
   ("tmdb_user_review_summary".toList, "tmdb_review_summary".toList),
   ("plot_with_character_constraints_and_relations".toList,
     "constrained_plot_with_relations".toList)]

/-- `update_all_active_fields_for_existing = not bool(fields_to_update_cfg)`
(line 229). -/
def update_all_active_fields_for_existing (cfg : List PyStr) : Bool := cfg.isEmpty

/-- `should_update_field_local` (lines 287-290): always update for new
movies; update everything when the policy list is empty; otherwise update
only field names appearing in the policy list. -/
def should_update_field_local (is_new_movie : Bool) (cfg : List PyStr)
    (field_name : PyStr) : Bool :=
  is_new_movie || update_all_active_fields_for_existing cfg || cfg.contains field_name

/-- `[k for k, v in key_to_enricher_group_map.items() if v == group]`. -/
def groupFields (group : PyStr) : List PyStr :=
  keyToEnricherGroupMap.filterMap (fun kv => if kv.2 = group then some kv.1 else none)

/-- The per-enricher-group gate (e.g. lines 295-298, 326-327, 418-419): the
enricher block is skipped for an existing movie with a non-empty policy list
containing none of the group's field names. -/
def enricherGateRuns (is_new_movie : Bool) (cfg : List PyStr)
    (gate_fields : List PyStr) : Bool :=
  is_new_movie || update_all_active_fields_for_existing cfg ||
    gate_fields.any (fun f => cfg.contains f)

/-- The gate list for the characters/relations block (line 326-327) also
includes the constrained-plot fields and the literal
`"fetch_character_images"`. -/
def charRelGateFields : List PyStr :=
  keyToEnricherGroupMap.filterMap
    (fun kv =>
      if kv.2 = "characters_and_relations".toList ∨
          kv.2 = "constrained_plot_with_relations".toList then some kv.1 else none)
    ++ ["fetch_character_images".toList]

/-- A field of an enricher group is overwritten in `working_data_dict`
(assuming the group's enricher is active and its call succeeds) exactly when
the group's gate lets the block run and `should_update_field_local` accepts
the field (merge loops at lines 309-319 and 431-433). -/
def fieldRecomputed (gate_fields : List PyStr) (is_new_movie : Bool)
    (cfg : List PyStr) (field_name : PyStr) : Bool :=
  enricherGateRuns is_new_movie cfg gate_fields &&
    should_update_field_local is_new_movie cfg field_name

/-- The value a field holds after the merge: the enricher result when the
field was recomputed, the previous value otherwise. -/
def mergedFieldValue {α : Type} (recomputed : Bool) (oldV newV : α) : α :=
  if recomputed then newV else oldV

/-! ### Schema validation (models/movie_models.py) -/
/-- `BigFiveTrait`. -/
structure BigFiveTrait where
  score : Int
  explanation : PyStr
deriving DecidableEq

/-- `CharacterProfileBigFive`: exactly the five named traits. -/
structure CharacterProfileBigFive where
  Openness : BigFiveTrait
  Conscientiousness : BigFiveTrait
  Extraversion : BigFiveTrait
  Agreeableness : BigFiveTrait
  Neuroticism : BigFiveTrait
deriving DecidableEq

/-- `CharacterProfileMyersBriggs`. -/
structure CharacterProfileMyersBriggs where
  type : PyStr
  explanation : PyStr
deriving DecidableEq

/-- `GenreMix.genres`. -/
structure GenreMix where
  genres : List (PyStr × Int)
deriving DecidableEq

/-- `MatchingTags.tags`. -/
structure MatchingTags where
  tags : Option (List (PyStr × PyStr))
deriving DecidableEq

/-- `RelatedMovie`. -/
structure RelatedMovie where
  title : PyStr
  imdb_id : Option PyStr
deriving DecidableEq

/-- The `Union[int, str]` year of a `Recommendation`. -/
inductive YearValue where
  | yint (n : Int)
  | ystr (s : PyStr)
deriving DecidableEq

/-- `Recommendation`. -/
structure Recommendation where
  title : PyStr
  year : YearValue
  explanation : PyStr
  imdb_id : Option PyStr
deriving DecidableEq

/-- Python `str.upper()` (ASCII). -/
def pyUpper (s : PyStr) : PyStr := s.map Char.toUpper

/-- The 16 valid MBTI codes. -/
def mbtiTypes : List PyStr :=
  ["ISTJ", "ISFJ", "INFJ", "INTJ", "ISTP", "ISFP", "INFP", "INTP",
   "ESTP", "ESFP", "ENFP", "ENTP", "ESTJ", "ESFJ", "ENFJ", "ENTJ"].map String.toList

/-- The closed tag vocabulary of `MatchingTags`. -/
def allowedTags : List PyStr :=
  ["Optimistic Dystopia", "Identity Quest", "Lo-Fi Epic", "Solarpunk Saga",
   "Existential Laugh", "Third Culture Narrative", "Micro Revolution",
   "Everyday Magic", "Existential Grind", "Accidental Wholesome",
   "Imperfect Unions", "Analog Heartbeats", "Legacy Reckoning",
   "Genre Autopsy", "Retro Immersion"].map String.toList

/-- Validate a `BigFiveTrait` (`score` within `[1, 5]`). -/
def validateBigFiveTrait (t : BigFiveTrait) : Bool :=
  decide (1 ≤ t.score ∧ t.score ≤ 5)

/-- Validate a whole Big Five profile. -/
def validateBig5 (b : CharacterProfileBigFive) : Option CharacterProfileBigFive :=
  if validateBigFiveTrait b.Openness && validateBigFiveTrait b.Conscientiousness &&
      validateBigFiveTrait b.Extraversion && validateBigFiveTrait b.Agreeableness &&
      validateBigFiveTrait b.Neuroticism then some b
  else none

/-- Validate an MBTI profile: length exactly four (the `Field` constraint) and
the uppercased code in the closed set; the validator returns the uppercased
code. -/
def validateMBTI (p : CharacterProfileMyersBriggs) : Option CharacterProfileMyersBriggs :=
  if p.type.length = 4 ∧ pyUpper p.type ∈ mbtiTypes then
    some { p with type := pyUpper p.type }
  else none

/-- Validate a genre mix: every percentage within `[0, 100]`. -/
def validateGenreMix (g : GenreMix) : Option GenreMix :=
  if g.genres.all (fun kv => decide (0 ≤ kv.2 ∧ kv.2 ≤ 100)) then some g else none

/-- Validate a tag set: `None` is allowed, otherwise every key must be in the
closed vocabulary. -/
def validateMatchingTags (m : MatchingTags) : Option MatchingTags :=
  match m.tags with
  | none => some m
  | some tgs => if tgs.all (fun kv => allowedTags.contains kv.1) then some m else none

/-- Parse a digit string as a number (valid only under `pyIsDigit`). -/
def digitsToInt (s : PyStr) : Int :=
  Int.ofNat (s.foldl (fun acc c => acc * 10 + (c.toNat - 48)) 0)

/-- The `year` validator of `Recommendation`: integers must lie in
`[1800, 2100]`; digit strings are converted to integers and range-checked;
other strings pass through unchanged. -/
def validateYear (y : YearValue) : Option YearValue :=
  match y with
  | YearValue.yint n => if 1800 ≤ n ∧ n ≤ 2100 then some (YearValue.yint n) else none
  | YearValue.ystr s =>
    if pyIsDigit s then
      if 1800 ≤ digitsToInt s ∧ digitsToInt s ≤ 2100 then
        some (YearValue.yint (digitsToInt s))
      else none
    else some (YearValue.ystr s)

/-- Validate a `Recommendation` (only `year` has a validator). -/
def validateRecommendation (r : Recommendation) : Option Recommendation :=
  (validateYear r.year).map (fun y => { r with year := y })

/-- Validate every element of a list, failing the whole list on the first
invalid element (pydantic list validation). -/
def listValidate {α β : Type} (f : α → Option β) : List α → Option (List β)
  | [] => some []
  | x :: xs =>
    match f x with
    | none => none
    | some y => (listValidate f xs).map (fun ys => y :: ys)

/-- Validate an optional list field. -/
def optListValidate {α β : Type} (f : α → Option β) : Option (List α) → Option (Option (List β))
  | none => some none
  | some l => (listValidate f l).map some

/-- The final `MovieEntry` (models/movie_models.py, lines 152-177) after
validation. -/
structure MovieEntry where
  movie_title : PyStr
  movie_year : PyStr
  tmdb_movie_id : Option Int
  imdb_id : Option PyStr
  character_profile : PyStr
  character_profile_big5 : CharacterProfileBigFive
  character_profile_myersbriggs : CharacterProfileMyersBriggs
  critical_reception : PyStr
  visual_style : PyStr
  most_talked_about_related_topic : PyStr
  genre_mix : GenreMix
  matching_tags : MatchingTags
  complex_search_queries : List PyStr
  sequel : Option RelatedMovie
  prequel : Option RelatedMovie
  spin_off_of : Option RelatedMovie
  spin_off : Option RelatedMovie
  remake_of : Option RelatedMovie
  remake : Option RelatedMovie
  recommendations : Option (List Recommendation)
  character_list : Option (List CharacterListItem)
  relationships : Option (List Relationship)
deriving DecidableEq

/-- The `working_data_dict` of `_enrich_and_update_movie_data` at
finalization time: every `MovieEntry` field, possibly `None`.  Fields that
are optional in `MovieEntry` stay optional after validation. -/
structure WorkingData where
  movie_title : Option PyStr
  movie_year : Option PyStr
  tmdb_movie_id : Option Int
  imdb_id : Option PyStr
  character_profile : Option PyStr
  character_profile_big5 : Option CharacterProfileBigFive
  character_profile_myersbriggs : Option CharacterProfileMyersBriggs
  critical_reception : Option PyStr
  visual_style : Option PyStr
  most_talked_about_related_topic : Option PyStr
  genre_mix : Option GenreMix
  matching_tags : Option MatchingTags
  complex_search_queries : Option (List PyStr)
  sequel : Option RelatedMovie
  prequel : Option RelatedMovie
  spin_off_of : Option RelatedMovie
  spin_off : Option RelatedMovie
  remake_of : Option RelatedMovie
  remake : Option RelatedMovie
  recommendations : Option (List Recommendation)
  character_list : Option (List CharacterListItem)
  relationships : Option (List Relationship)
deriving DecidableEq

/-- `MovieEntry.model_validate(working_data_dict)` (line 527): every
non-`Optional` field must be present (`None` is rejected) and every nested
sub-model must validate; `None` is accepted for the `Optional` fields.
Returns the validated entry or `none` for a `ValidationError`. -/
def validateMovieEntry (w : WorkingData) : Option MovieEntry := do
  let mt ← w.movie_title
  let my ← w.movie_year
  let cp ← w.character_profile
  let b5raw ← w.character_profile_big5
  let b5 ← validateBig5 b5raw
  let mbraw ← w.character_profile_myersbriggs
  let mb ← validateMBTI mbraw
  let cr ← w.critical_reception
  let vs ← w.visual_style
  let mtt ← w.most_talked_about_related_topic
  let gmraw ← w.genre_mix
  let gm ← validateGenreMix gmraw
  let mtgraw ← w.matching_tags
  let mtg ← validateMatchingTags mtgraw
  let csq ← w.complex_search_queries
  let recs ← optListValidate validateRecommendation w.recommendations
  let rels ← optListValidate validateRelationship w.relationships
  some
    { movie_title := mt, movie_year := my, tmdb_movie_id := w.tmdb_movie_id,
      imdb_id := w.imdb_id, character_profile := cp, character_profile_big5 := b5,
      character_profile_myersbriggs := mb, critical_reception := cr,
      visual_style := vs, most_talked_about_related_topic := mtt,
      genre_mix := gm, matching_tags := mtg, complex_search_queries := csq,
      sequel := w.sequel, prequel := w.prequel, spin_off_of := w.spin_off_of,
      spin_off := w.spin_off, remake_of := w.remake_of, remake := w.remake,
      recommendations := recs, character_list := w.character_list,
      relationships := rels }

/-! ### Serialization and persistence (main_orchestrator.py, lines 634-659
and 771-792; utils/helpers.py, lines 70-80) -/
set_option maxHeartbeats 1000000

/-- A YAML-serialisable value as written by `yaml.dump`. -/
inductive YValue where
  | ynull
  | ybool (b : Bool)
  | yint (n : Int)
  | ystr (s : PyStr)
  | ylist (xs : List YValue)
  | ymap (kvs : List (PyStr × YValue))

mutual

/-- The serialized tree contains no `null` anywhere. -/
def noNull : YValue → Bool
  | YValue.ynull => false
  | YValue.ybool _ => true
  | YValue.yint _ => true
  | YValue.ystr _ => true
  | YValue.ylist xs => noNullList xs
  | YValue.ymap kvs => noNullMap kvs

def noNullList : List YValue → Bool
  | [] => true
  | x :: xs => noNull x && noNullList xs

def noNullMap : List (PyStr × YValue) → Bool
  | [] => true
  | (_, v) :: kvs => noNull v && noNullMap kvs

end

/-- An optional key of a `model_dump(exclude_none=True)`: omitted when the
value is `None`. -/
def optKey (k : String) (o : Option YValue) : List (PyStr × YValue) :=
  match o with
  | none => []
  | some v => [(k.toList, v)]

/-- `model_dump(exclude_none=True)` of a `RelatedMovie`. -/
def dumpRelatedMovie (r : RelatedMovie) : YValue :=
  YValue.ymap ([("title".toList, YValue.ystr r.title)] ++
    optKey "imdb_id" (r.imdb_id.map YValue.ystr))

/-- The dumped `year` of a `Recommendation`. -/
def dumpYear : YearValue → YValue
  | YearValue.yint n => YValue.yint n
  | YearValue.ystr s => YValue.ystr s

/-- `model_dump(exclude_none=True)` of a `Recommendation`. -/
def dumpRecommendation (r : Recommendation) : YValue :=
  YValue.ymap ([("title".toList, YValue.ystr r.title),
    ("year".toList, dumpYear r.year),
    ("explanation".toList, YValue.ystr r.explanation)] ++
    optKey "imdb_id" (r.imdb_id.map YValue.ystr))

/-- `model_dump` of a `BigFiveTrait` (both fields required). -/
def dumpTrait (t : BigFiveTrait) : YValue :=
  YValue.ymap [("score".toList, YValue.yint t.score),
    ("explanation".toList, YValue.ystr t.explanation)]

/-- `model_dump` of a `CharacterProfileBigFive`. -/
def dumpBig5 (b : CharacterProfileBigFive) : YValue :=
  YValue.ymap [("Openness".toList, dumpTrait b.Openness),
    ("Conscientiousness".toList, dumpTrait b.Conscientiousness),
    ("Extraversion".toList, dumpTrait b.Extraversion),
    ("Agreeableness".toList, dumpTrait b.Agreeableness),
    ("Neuroticism".toList, dumpTrait b.Neuroticism)]

/-- `model_dump` of a `CharacterProfileMyersBriggs`. -/
def dumpMBTI (p : CharacterProfileMyersBriggs) : YValue :=
  YValue.ymap [("type".toList, YValue.ystr p.type),
    ("explanation".toList, YValue.ystr p.explanation)]

/-- `model_dump` of a `GenreMix`. -/
def dumpGenreMix (g : GenreMix) : YValue :=
  YValue.ymap [("genres".toList,
    YValue.ymap (g.genres.map (fun kv => (kv.1, YValue.yint kv.2))))]

/-- `model_dump(exclude_none=True)` of a `MatchingTags` (the `tags` key is
omitted when `None`). -/
def dumpMatchingTags (m : MatchingTags) : YValue :=
  YValue.ymap (optKey "tags"
    (m.tags.map (fun tgs => YValue.ymap (tgs.map (fun kv => (kv.1, YValue.ystr kv.2))))))

/-- `model_dump(exclude_none=True)` of a `CharacterListItem`. -/
def dumpCharacterListItem (c : CharacterListItem) : YValue :=
  YValue.ymap ([("name".toList, YValue.ystr c.name),
      ("actor_name".toList, YValue.ystr c.actor_name)] ++
    optKey "tmdb_person_id" (c.tmdb_person_id.map YValue.yint) ++
    [("description".toList, YValue.ystr c.description),
      ("group".toList, YValue.ystr c.group)] ++
    optKey "aliases" (c.aliases.map (fun xs => YValue.ylist (xs.map YValue.ystr))) ++
    optKey "image_file" (c.image_file.map YValue.ystr))

/-- `model_dump` of a `Relationship` (all fields required). -/
def dumpRelationship (r : Relationship) : YValue :=
  YValue.ymap [("source".toList, YValue.ystr r.source),
    ("target".toList, YValue.ystr r.target),
    ("type".toList, YValue.ystr r.type),
    ("directed".toList, YValue.ybool r.directed),
    ("description".toList, YValue.ystr r.description),
    ("sentiment".toList, YValue.ystr r.sentiment),
    ("strength".toList, YValue.yint r.strength),
    ("tense".toList, YValue.ystr r.tense)]

/-- `entry.model_dump(exclude_none=True)` of a `MovieEntry` (lines 652 and
787): every `None`-valued optional field is omitted; required fields and
nested models are dumped recursively with the same rule. -/
def dumpMovieEntry (e : MovieEntry) : YValue :=
  YValue.ymap ([("movie_title".toList, YValue.ystr e.movie_title),
      ("movie_year".toList, YValue.ystr e.movie_year)] ++
    optKey "tmdb_movie_id" (e.tmdb_movie_id.map YValue.yint) ++
    optKey "imdb_id" (e.imdb_id.map YValue.ystr) ++
    [("character_profile".toList, YValue.ystr e.character_profile),
      ("character_profile_big5".toList, dumpBig5 e.character_profile_big5),
      ("character_profile_myersbriggs".toList, dumpMBTI e.character_profile_myersbriggs),
      ("critical_reception".toList, YValue.ystr e.critical_reception),
      ("visual_style".toList, YValue.ystr e.visual_style),
      ("most_talked_about_related_topic".toList,
        YValue.ystr e.most_talked_about_related_topic),
      ("genre_mix".toList, dumpGenreMix e.genre_mix),
      ("matching_tags".toList, dumpMatchingTags e.matching_tags),
      ("complex_search_queries".toList,
        YValue.ylist (e.complex_search_queries.map YValue.ystr))] ++
    optKey "sequel" (e.sequel.map dumpRelatedMovie) ++
    optKey "prequel" (e.prequel.map dumpRelatedMovie) ++
    optKey "spin_off_of" (e.spin_off_of.map dumpRelatedMovie) ++
    optKey "spin_off" (e.spin_off.map dumpRelatedMovie) ++
    optKey "remake_of" (e.remake_of.map dumpRelatedMovie) ++
    optKey "remake" (e.remake.map dumpRelatedMovie) ++
    optKey "recommendations"
      (e.recommendations.map (fun l => YValue.ylist (l.map dumpRecommendation))) ++
    optKey "character_list"
      (e.character_list.map (fun l => YValue.ylist (l.map dumpCharacterListItem))) ++
    optKey "relationships"
      (e.relationships.map (fun l => YValue.ylist (l.map dumpRelationship))))

/-- The serialized full collection handed to `save_movie_data_to_yaml`
(lines 651-654): every entry dumped with `exclude_none=True`. -/
def dumpCollection (entries : List MovieEntry) : List YValue :=
  entries.map dumpMovieEntry

/-- `entry.movie_title.lower().strip()`, the collection's match key. -/
def normTitle (s : PyStr) : PyStr := pyTrim (pyLower s)

/-- The replace-or-append of the in-memory collection for a successfully
validated entry (lines 636-645: replace the first entry with the same
normalized title, else append). -/
def replaceByTitle (master : List MovieEntry) (e : MovieEntry) : List MovieEntry :=
  match master.findIdx? (fun m => normTitle m.movie_title = normTitle e.movie_title) with
  | some i => master.set i e
  | none => master ++ [e]

/-- The per-candidate persistence step of `run_enrichment_pipeline` (lines
634-659): the state is the in-memory collection plus the sequence of file
rewrites performed so far.  `result` is `_enrich_and_update_movie_data`'s
return value: `none` (validation failed) leaves the state unchanged; a
validated entry is replaced-or-appended (appended directly for a new movie)
and the whole collection is rewritten to storage. -/
def processCandidate (st : List MovieEntry × List (List YValue))
    (is_existing_movie : Bool) (result : Option MovieEntry) :
    List MovieEntry × List (List YValue) :=
  match result with
  | none => st
  | some fme =>
    let master := if is_existing_movie then replaceByTitle st.1 fme else st.1 ++ [fme]
    (master, st.2 ++ [dumpCollection master])

/-- The candidate loop: each candidate carries its existing/new flag and its
enrichment result. -/
def runCandidates (st : List MovieEntry × List (List YValue))
    (cands : List (Bool × Option MovieEntry)) : List MovieEntry × List (List YValue) :=
  cands.foldl (fun st c => processCandidate st c.1 c.2) st

/-! ### Recommendations transformer (enrichers/analytical_enricher.py,
lines 44-81) -/
/-- The single-quote character. -/
def squote : Char := Char.ofNat 39

/-- Python `repr` escaping inside a quoted string (backslash and quote). -/
def escapeChar (c : Char) : PyStr :=
  if c = '\\' ∨ c = squote then ['\\', c] else [c]

/-- Escape a whole string for `repr`. -/
def escapeStr (s : PyStr) : PyStr := s.foldr (fun c acc => escapeChar c ++ acc) []

/-- `repr` of a string: single-quoted with escapes.  (Python switches to
double quotes when the text contains a single quote but no double quote;
that cosmetic difference never reaches a theorem — `str()` results are
carried opaquely.) -/
def reprStr (s : PyStr) : PyStr := squote :: escapeStr s ++ [squote]

mutual

/-- Python `str(value)`. -/
def pyValueStr : PyValue → PyStr
  | PyValue.vstr s => s
  | PyValue.vnone => "None".toList
  | PyValue.vbool b => if b then "True".toList else "False".toList
  | PyValue.vint n => (toString n).toList
  | PyValue.vlist xs => '[' :: pyValueReprList xs ++ [']']
  | PyValue.vdict kvs => "\x7b".toList ++ pyValueReprMap kvs ++ "\x7d".toList

/-- Python `repr(value)` (as used by `str` on containers). -/
def pyValueRepr : PyValue → PyStr
  | PyValue.vstr s => reprStr s
  | PyValue.vnone => "None".toList
  | PyValue.vbool b => if b then "True".toList else "False".toList
  | PyValue.vint n => (toString n).toList
  | PyValue.vlist xs => '[' :: pyValueReprList xs ++ [']']
  | PyValue.vdict kvs => "\x7b".toList ++ pyValueReprMap kvs ++ "\x7d".toList

def pyValueReprList : List PyValue → PyStr
  | [] => []
  | [x] => pyValueRepr x
  | x :: xs => pyValueRepr x ++ ", ".toList ++ pyValueReprList xs

def pyValueReprMap : List (PyStr × PyValue) → PyStr
  | [] => []
  | [(k, v)] => reprStr k ++ ": ".toList ++ pyValueRepr v
  | (k, v) :: kvs => reprStr k ++ ": ".toList ++ pyValueRepr v ++ ", ".toList ++
      pyValueReprMap kvs

end

/-- Python `v is not None`, as an option. -/
def nonNone (v : PyValue) : Option PyValue :=
  match v with
  | PyValue.vnone => none
  | v => some v

/-- Python `d.get(k)` (missing key gives `None`). -/
def pyDictGet (d : PyDict) (k : PyStr) : Option PyValue :=
  (d.find? (fun kv => kv.1 = k)).map (fun kv => kv.2)

/-- `d.get(k)` combined with the `is not None` test of the transformer (a
missing key and an explicit `null` behave identically). -/
def dictGetNonNone (d : PyDict) (k : PyStr) : Option PyValue :=
  match pyDictGet d k with
  | some v => nonNone v
  | none => none

/-- Python `d[k] = v`: replace the value of the first matching key in place,
else append the key. -/
def pyDictSetValue : PyDict → PyStr → PyValue → PyDict
  | [], k, v => [(k, v)]
  | kv :: rest, k, v =>
    if kv.1 = k then (k, v) :: rest else kv :: pyDictSetValue rest k v

/-- The transformed recommendation entry
`{"title": str(t).strip(), "year": str(y).strip(), "explanation": str(e).strip()}`. -/
def mkRecDict (t y e : PyValue) : PyValue :=
  PyValue.vdict [("title".toList, PyValue.vstr (pyTrim (pyValueStr t))),
    ("year".toList, PyValue.vstr (pyTrim (pyValueStr y))),
    ("explanation".toList, PyValue.vstr (pyTrim (pyValueStr e)))]

/-- The final `if rec_title is not None and rec_year is not None and
rec_explanation is not None` guard of the loop: all three parts present
yields the transformed entry, anything else drops it. -/
def threeParts (a b c : Option PyValue) : Option PyValue :=
  match a, b, c with
  | some t, some y, some e => some (mkRecDict t y e)
  | _, _, _ => none

/-- One iteration of the recommendation transformation loop (lines 48-75),
parameterised by `ast.literal_eval`: a dict yields its `title`/`year`/
`explanation` values, a 3-element list its elements, a string whatever a
literal parse produces when that is a 3-element list; the entry is kept only
when all three parts are non-`None`, and is dropped (`none`) otherwise. -/
def transformRecItem (literalEval : PyStr → Option PyValue) (item : PyValue) :
    Option PyValue :=
  match item with
  | PyValue.vdict d =>
    threeParts (dictGetNonNone d "title".toList) (dictGetNonNone d "year".toList)
      (dictGetNonNone d "explanation".toList)
  | PyValue.vlist [a, b, c] => threeParts (nonNone a) (nonNone b) (nonNone c)
  | PyValue.vstr s =>
    match literalEval s with
    | some (PyValue.vlist [a, b, c]) => threeParts (nonNone a) (nonNone b) (nonNone c)
    | _ => none
  | _ => none

/-- The `recommendations` transformation of `generate_analytical_data`
(lines 46-81): a present list value is replaced by the per-entry transforms
of its reducible entries; a present non-list value is replaced by the empty
list; an absent key leaves the data unchanged. -/
def transformRecommendationsField (literalEval : PyStr → Option PyValue)
    (data : PyDict) : PyDict :=
  match pyDictGet data "recommendations".toList with
  | some (PyValue.vlist items) =>
    pyDictSetValue data "recommendations".toList
      (PyValue.vlist (items.filterMap (transformRecItem literalEval)))
  | some _ => pyDictSetValue data "recommendations".toList (PyValue.vlist [])
  | none => data

/-- The claim's reading of "reducible to all three parts", written from the
spec's words for comparison with `transformRecItem`: an object with non-null
`title`/`year`/`explanation` values, a 3-element list of non-null parts, or
a string that literal-parses to such a list. -/
def ReducibleToThreeParts (literalEval : PyStr → Option PyValue) (item : PyValue) : Prop :=
  (∃ d, item = PyValue.vdict d ∧
    (dictGetNonNone d "title".toList).isSome ∧ (dictGetNonNone d "year".toList).isSome ∧
    (dictGetNonNone d "explanation".toList).isSome) ∨
  (∃ a b c, item = PyValue.vlist [a, b, c] ∧
    (nonNone a).isSome ∧ (nonNone b).isSome ∧ (nonNone c).isSome) ∨
  (∃ s a b c, item = PyValue.vstr s ∧ literalEval s = some (PyValue.vlist [a, b, c]) ∧
    (nonNone a).isSome ∧ (nonNone b).isSome ∧ (nonNone c).isSome)

/-- A stub strict parser for the C8 witness: parses only the one-character
text `a` to a mapping. -/
def c8JsonStub : PyStr → Option PyValue :=
  fun s => if s = "a".toList then some (PyValue.vdict [("k".toList, PyValue.vnone)]) else none

/-- A stub permissive parser for the C8 witness: never parses. -/
def c8YamlStub : PyStr → Option PyValue := fun _ => none

/-- A one-character roster (canonical name `Jane`, alias `J`) for the C4
witness. -/
def c4Roster : List CharacterListItem :=
  [{ name := "Jane".toList, actor_name := "Some Actor".toList, tmdb_person_id := none,
     description := "lead".toList, group := "main".toList,
     aliases := some ["J".toList], image_file := none }]

/-- An alias self-edge (`J -> Jane`) for the C4 witness. -/
def c4Edges : List Relationship :=
  [{ source := "J".toList, target := "Jane".toList, type := "friendship".toList,
     directed := true, description := "d".toList, sentiment := "positive".toList,
     strength := 3, tense := "present".toList }]

/-- A two-character roster for the C1 counterexample. -/
def c1Roster : List CharacterListItem :=
  [{ name := "A".toList, actor_name := "ActorA".toList, tmdb_person_id := none,
     description := "d".toList, group := "main".toList, aliases := none,
     image_file := none },
   { name := "B".toList, actor_name := "ActorB".toList, tmdb_person_id := none,
     description := "d".toList, group := "main".toList, aliases := none,
     image_file := none }]

/-- A directed edge `A -> B`. -/
def c1EdgeAB : Relationship :=
  { source := "A".toList, target := "B".toList, type := "rivalry".toList,
    directed := true, description := "d".toList, sentiment := "negative".toList,
    strength := 4, tense := "present".toList }

/-- The reverse directed edge `B -> A` (no non-directed edge precedes it). -/
def c1EdgeBA : Relationship :=
  { source := "B".toList, target := "A".toList, type := "rivalry".toList,
    directed := true, description := "d".toList, sentiment := "negative".toList,
    strength := 4, tense := "present".toList }

/-- A fully valid Big Five profile for the C3 evaluation. -/
def c3Big5 : CharacterProfileBigFive :=
  { Openness := { score := 3, explanation := "o".toList },
    Conscientiousness := { score := 4, explanation := "c".toList },
    Extraversion := { score := 2, explanation := "e".toList },
    Agreeableness := { score := 5, explanation := "a".toList },
    Neuroticism := { score := 1, explanation := "n".toList } }

/-- A finalized working record whose every other field is valid, with the
Big Five profile as given (the full-refresh failure path of the analytical
enricher leaves it `None`, lines 437-441). -/
def c3Working (big5 : Option CharacterProfileBigFive) : WorkingData :=
  { movie_title := some "Example Film".toList, movie_year := some "2001".toList,
    tmdb_movie_id := some 42, imdb_id := none,
    character_profile := some "profile text".toList,
    character_profile_big5 := big5,
    character_profile_myersbriggs := some { type := "INTJ".toList, explanation := "t".toList },
    critical_reception := some "acclaimed".toList,
    visual_style := some "noir".toList,
    most_talked_about_related_topic := some "the ending".toList,
    genre_mix := some { genres := [("action".toList, 60), ("drama".toList, 40)] },
    matching_tags := some { tags := none },
    complex_search_queries := some [],
    sequel := none, prequel := none, spin_off_of := none, spin_off := none,
    remake_of := none, remake := none,
    recommendations := some [], character_list := some [], relationships := some [] }

/-- The Python-value prefix `recommendations` key as a constant. -/
def recKey : PyStr := "recommendations".toList

/-- A stub `ast.literal_eval` for the C5 counterexample (never parses: the
input contains no string entries to parse). -/
def c5LitEval : PyStr → Option PyValue := fun _ => none

/-- An analytical-output dict whose raw `recommendations` value is present
but not a list. -/
def c5DataNonList : PyDict :=
  [("recommendations".toList, PyValue.vstr "Movie A, Movie B".toList)]

/-- A keepable object-shaped recommendation entry for the C5 witness. -/
def c5GoodItem : PyValue :=
  PyValue.vdict [("title".toList, PyValue.vstr "T".toList),
    ("year".toList, PyValue.vint 1999),
    ("explanation".toList, PyValue.vstr "E".toList)]

/-- An entry not reducible to three parts for the C5 witness. -/
def c5BadItem : PyValue := PyValue.vint 7

/-- An analytical-output dict with a list-shaped `recommendations` value for
the C5 witness. -/
def c5WitnessData : PyDict :=
  [("recommendations".toList, PyValue.vlist [c5GoodItem, c5BadItem])]

/-- A year-matching substring candidate ranked first by the provider. -/
def c6Tier3First : TMDBResult :=
  { id := 1, title := "abc".toList, release_date := some "2000-01-01".toList }

/-- An exact-title candidate (different year) ranked second. -/
def c6Tier2Later : TMDBResult :=
  { id := 2, title := "ab".toList, release_date := some "1999-05-05".toList }

theorem trimL_length_le (s : PyStr) : (trimL s).length ≤ s.length :=
  ((s.dropWhile_suffix isWS).sublist).length_le

theorem trimR_isPre (s : PyStr) : (trimR s) <+: s := by
  have hp := List.rdropWhile_prefix isWS s
  exact hp

theorem trimR_length_le (s : PyStr) : (trimR s).length ≤ s.length :=
  ((trimR_isPre s).sublist).length_le

theorem pyTrim_length_le (s : PyStr) : (pyTrim s).length ≤ s.length :=
  le_trans (trimR_length_le _) (trimL_length_le s)

theorem trimL_ne_imp_lt {s : PyStr} (h : trimL s ≠ s) : (trimL s).length < s.length := by
  rcases Nat.lt_or_ge (trimL s).length s.length with hlt | hge
  · exact hlt
  · exact absurd (((s.dropWhile_suffix isWS).sublist).eq_of_length_le hge) h

theorem trimR_ne_imp_lt {s : PyStr} (h : trimR s ≠ s) : (trimR s).length < s.length := by
  rcases Nat.lt_or_ge (trimR s).length s.length with hlt | hge
  · exact hlt
  · exact absurd (((trimR_isPre s).sublist).eq_of_length_le hge) h

theorem pyTrim_ne_imp_lt {s : PyStr} (h : pyTrim s ≠ s) : (pyTrim s).length < s.length := by
  by_cases hL : trimL s = s
  · have : trimR s ≠ s := by
      intro hR; exact h (by rw [pyTrim, hL, hR])
    calc (pyTrim s).length = (trimR s).length := by rw [pyTrim, hL]
    _ < s.length := trimR_ne_imp_lt this
  · exact lt_of_le_of_lt (trimR_length_le _) (trimL_ne_imp_lt hL)

theorem trimL_idem (s : PyStr) : trimL (trimL s) = trimL s :=
  List.dropWhile_idempotent isWS s

theorem trimR_idem (s : PyStr) : trimR (trimR s) = trimR s :=
  List.rdropWhile_idempotent isWS s

theorem trimL_trimR (s : PyStr) : trimL (trimR (trimL s)) = trimR (trimL s) := by
  apply List.dropWhile_eq_self_iff.mpr
  intro hl
  have hpre : (trimR (trimL s)) <+: (trimL s) := trimR_isPre (trimL s)
  have hlt : 0 < (trimL s).length := lt_of_lt_of_le hl hpre.length_le
  have hget : (trimR (trimL s)).get ⟨0, hl⟩ = (trimL s).get ⟨0, hlt⟩ := by
    simpa using hpre.getElem hl
  rw [hget]
  exact List.dropWhile_get_zero_not isWS s hlt

theorem pyTrim_idem (s : PyStr) : pyTrim (pyTrim s) = pyTrim s := by
  unfold pyTrim
  rw [trimL_trimR, trimR_idem]

theorem startsWithTicks_length {s : PyStr} (h : startsWithTicks s = true) : 3 ≤ s.length := by
  have hp := List.isPrefixOf_iff_prefix.mp h
  simpa [ticks3] using hp.sublist.length_le

theorem endsWithTicks_length {s : PyStr} (h : endsWithTicks s = true) : 3 ≤ s.length := by
  have := (List.isSuffixOf_iff_suffix.mp h).length_le
  simpa [ticks3] using this

theorem dropLast3_length (s : PyStr) : (dropLast3 s).length = s.length - 3 := by
  simp [dropLast3]

theorem fenceInner_length {t inner : PyStr} (h : fenceInner t = some inner) :
    inner.length + 6 ≤ t.length := by
  unfold fenceInner at h
  by_cases h1 : startsWithTicks (trimL t) = true
  · simp only [h1, if_true] at h
    by_cases h2 : endsWithTicks (trimR ((trimL t).drop 3)) = true
    · simp only [h2, if_true, Option.some.injEq] at h
      have hinner : inner.length ≤ (dropLast3 (trimR ((trimL t).drop 3))).length := by
        rw [← h]
        exact le_trans (pyTrim_length_le _) (by simp)
      have htr3 : 3 ≤ (trimR ((trimL t).drop 3)).length := endsWithTicks_length h2
      have htr : (trimR ((trimL t).drop 3)).length ≤ ((trimL t).drop 3).length :=
        trimR_length_le _
      have hr1 : 3 ≤ (trimL t).length := startsWithTicks_length h1
      have hL : (trimL t).length ≤ t.length := trimL_length_le t
      rw [dropLast3_length] at hinner
      simp only [List.length_drop] at htr
      omega
    · simp [h2] at h
  · simp [h1] at h

theorem openFenceFallback_length_le (r : PyStr) : (openFenceFallback r).length ≤ r.length := by
  unfold openFenceFallback
  cases hf : r.findIdx? (fun c => c = '\n') with
  | none => exact pyTrim_length_le r
  | some i =>
    simp only []
    split
    · exact le_trans (pyTrim_length_le _) (by simp)
    · exact pyTrim_length_le r

theorem jsonYamlPrefixDrop_length_le (t : PyStr) :
    (jsonYamlPrefixDrop t).length ≤ t.length := by
  unfold jsonYamlPrefixDrop
  split
  · exact le_trans (pyTrim_length_le _) (by simp)
  · split
    · exact le_trans (pyTrim_length_le _) (by simp)
    · exact le_rfl

theorem openFencePart_length {t : PyStr} (h : startsWithTicks t = true) :
    (openFencePart t).length + 3 ≤ t.length := by
  have h3 := startsWithTicks_length h
  unfold openFencePart
  rw [if_pos h]
  have := openFenceFallback_length_le (t.drop 3)
  simp only [List.length_drop] at this
  omega

theorem closeFencePart_length_le (t : PyStr) : (closeFencePart t).length ≤ t.length := by
  unfold closeFencePart
  split
  · exact le_trans (pyTrim_length_le _) (by rw [dropLast3_length]; omega)
  · exact le_rfl

theorem jsonYamlPrefixDrop_lt {t : PyStr} (h : jsonYamlPrefixDrop t ≠ t) :
    (jsonYamlPrefixDrop t).length < t.length := by
  unfold jsonYamlPrefixDrop at *
  by_cases h1 : ((t.take 5).map Char.toLower = "json\n".toList ∨
      (t.take 5).map Char.toLower = "yaml\n".toList)
  · have hlen : 5 ≤ t.length := by
      rcases h1 with h1 | h1 <;>
      · have := congrArg List.length h1
        simp at this
        omega
    simp only [h1, if_true]
    have := pyTrim_length_le (t.drop 5)
    simp only [List.length_drop] at this
    omega
  · by_cases h2 : ((t.take 5).map Char.toLower = "json ".toList ∨
        (t.take 5).map Char.toLower = "yaml ".toList)
    · have hlen : 5 ≤ t.length := by
        rcases h2 with h2 | h2 <;>
        · have := congrArg List.length h2
          simp at this
          omega
      simp only [h1, h2, if_false, if_true]
      have := pyTrim_length_le (t.drop 5)
      simp only [List.length_drop] at this
      omega
    · exfalso
      simp only [h1, h2, if_false] at h
      exact h rfl

theorem stripStep_lt {t : PyStr} (h : stripStep t ≠ t) : (stripStep t).length < t.length := by
  unfold stripStep at *
  cases hf : fenceInner t with
  | some inner =>
    have := fenceInner_length hf
    simp only [Option.getD_some]
    omega
  | none =>
    rw [hf] at h
    simp only [Option.getD_none] at h ⊢
    have hc := closeFencePart_length_le (openFencePart t)
    have hj := jsonYamlPrefixDrop_length_le (closeFencePart (openFencePart t))
    have hp := pyTrim_length_le (jsonYamlPrefixDrop (closeFencePart (openFencePart t)))
    by_cases hs : startsWithTicks t = true
    · have := openFencePart_length hs
      omega
    · have h1 : openFencePart t = t := by unfold openFencePart; rw [if_neg hs]
      rw [h1] at hc hj hp h ⊢
      by_cases he : endsWithTicks t = true
      · have h3 := endsWithTicks_length he
        have hc2 : (closeFencePart t).length + 3 ≤ t.length := by
          unfold closeFencePart
          rw [if_pos he]
          have := pyTrim_length_le (dropLast3 t)
          rw [dropLast3_length] at this
          omega
        omega
      · have h2 : closeFencePart t = t := by unfold closeFencePart; rw [if_neg he]
        rw [h2] at hj hp h ⊢
        by_cases hd : jsonYamlPrefixDrop t = t
        · rw [hd] at h ⊢
          exact pyTrim_ne_imp_lt h
        · have := jsonYamlPrefixDrop_lt hd
          omega

theorem stripStep_is_pyTrim (t : PyStr) : ∃ y, stripStep t = pyTrim y := by
  unfold stripStep
  cases hf : fenceInner t with
  | some inner =>
    unfold fenceInner at hf
    by_cases h1 : startsWithTicks (trimL t) = true
    · simp only [h1, if_true] at hf
      by_cases h2 : endsWithTicks (trimR ((trimL t).drop 3)) = true
      · simp only [h2, if_true, Option.some.injEq] at hf
        exact ⟨_, by simp only [Option.getD_some]; exact hf.symm⟩
      · simp [h2] at hf
    · simp [h1] at hf
  | none =>
    exact ⟨jsonYamlPrefixDrop (closeFencePart (openFencePart t)), by
      simp only [Option.getD_none]⟩

theorem stripStep_fix_pyTrim {t : PyStr} (h : stripStep t = t) : pyTrim t = t := by
  obtain ⟨y, hy⟩ := stripStep_is_pyTrim t
  rw [← h, hy, pyTrim_idem]

theorem stripLoop_fix {fuel : Nat} {t : PyStr} (h : t.length < fuel) :
    stripStep (stripLoop fuel t) = stripLoop fuel t := by
  induction fuel generalizing t with
  | zero => omega
  | succ n ih =>
    unfold stripLoop
    by_cases hx : stripStep t = t
    · rw [if_pos hx]
      exact hx
    · rw [if_neg hx]
      exact ih (by have := stripStep_lt hx; omega)

theorem stripLoop_of_fix {fuel : Nat} {t : PyStr} (h : stripStep t = t) :
    stripLoop fuel t = t := by
  cases fuel with
  | zero => rfl
  | succ n => unfold stripLoop; rw [if_pos h]

theorem strip_code_fences_fix (t : PyStr) :
    stripStep (strip_code_fences t) = strip_code_fences t ∨ strip_code_fences t = [] := by
  by_cases h0 : t = []
  · right; simp [strip_code_fences, h0]
  · left
    unfold strip_code_fences
    rw [if_neg h0]
    exact stripLoop_fix (by omega)

theorem strip_code_fences_idem (t : PyStr) :
    strip_code_fences (strip_code_fences t) = strip_code_fences t := by
  rcases strip_code_fences_fix t with hfix | hnil
  · set u := strip_code_fences t with hu
    by_cases hue : u = []
    · rw [hue]; simp [strip_code_fences]
    · unfold strip_code_fences
      rw [if_neg hue, stripStep_fix_pyTrim hfix]
      exact stripLoop_of_fix hfix
  · rw [hnil]; simp [strip_code_fences]

theorem parse_strip_invariant (jsonLoads yamlLoads : PyStr → Option PyValue) (t : PyStr) :
    parse_llm_output_to_dict jsonLoads yamlLoads (strip_code_fences t) =
      parse_llm_output_to_dict jsonLoads yamlLoads t := by
  by_cases h0 : t = []
  · subst h0
    simp [strip_code_fences]
  · by_cases h1 : strip_code_fences t = []
    · simp [parse_llm_output_to_dict, h0, h1]
    · simp only [parse_llm_output_to_dict, h0, h1, if_neg, if_false,
        strip_code_fences_idem]

theorem pyStrLe_total (a b : PyStr) : pyStrLe a b = true ∨ pyStrLe b a = true := by
  induction a generalizing b with
  | nil => left; rfl
  | cons x xs ih =>
    cases b with
    | nil => right; rfl
    | cons y ys =>
      by_cases hxy : x.toNat < y.toNat
      · left; simp [pyStrLe, hxy]
      · by_cases hyx : y.toNat < x.toNat
        · right; simp [pyStrLe, hyx]
        · rcases ih ys with h | h
          · left; simp [pyStrLe, hxy, hyx, h]
          · right; simp [pyStrLe, hxy, hyx, h]

theorem pyStrLe_antisymm {a b : PyStr} (h₁ : pyStrLe a b = true) (h₂ : pyStrLe b a = true) :
    a = b := by
  induction a generalizing b with
  | nil =>
    cases b with
    | nil => rfl
    | cons y ys => simp [pyStrLe] at h₂
  | cons x xs ih =>
    cases b with
    | nil => simp [pyStrLe] at h₁
    | cons y ys =>
      by_cases hxy : x.toNat < y.toNat
      · simp [pyStrLe, hxy, Nat.lt_asymm hxy] at h₂
      · by_cases hyx : y.toNat < x.toNat
        · simp [pyStrLe, hxy, hyx] at h₁
        · have hx : x = y := by
            have hn : x.toNat = y.toNat := by omega
            exact Char.eq_of_val_eq (UInt32.eq_of_val_eq (Fin.ext hn))
          subst hx
          simp only [pyStrLe, hxy, if_neg, if_false] at h₁ h₂
          rw [ih h₁ h₂]

theorem sortPair_comm (a b : PyStr) : sortPair a b = sortPair b a := by
  unfold sortPair
  by_cases hab : pyStrLe a b = true
  · by_cases hba : pyStrLe b a = true
    · rw [pyStrLe_antisymm hab hba]
    · simp [hab, hba]
  · rcases pyStrLe_total a b with h | h
    · exact absurd h hab
    · simp [hab, h]

theorem samePair_edgeKey {e₁ e₂ : Relationship} (h : SamePair e₁ e₂) :
    edgeKey e₁ = edgeKey e₂ := by
  rcases h with ⟨hs, ht⟩ | ⟨hs, ht⟩
  · simp [edgeKey, hs, ht]
  · simp only [edgeKey, hs, ht]
    exact sortPair_comm _ _

theorem aliasFold_mem {canonical : PyStr} {als : List PyStr} {acc : NameMap} {kv : PyStr × PyStr}
    (h : kv ∈ als.foldl
      (fun acc a => if pyTrim a ≠ [] then dictSet acc (pyLower (pyTrim a)) canonical else acc)
      acc) :
    kv ∈ acc ∨ kv.2 = canonical := by
  induction als generalizing acc with
  | nil => exact Or.inl h
  | cons a rest ih =>
    simp only [List.foldl_cons] at h
    rcases ih h with hmem | hc
    · by_cases ha : pyTrim a ≠ []
      · rw [if_pos ha] at hmem
        rcases List.mem_cons.mp hmem with heq | hmem'
        · right; rw [heq]
        · exact Or.inl hmem'
      · rw [if_neg ha] at hmem
        exact Or.inl hmem
    · exact Or.inr hc

theorem addCharToMap_mem {m : NameMap} {c : CharacterListItem} {kv : PyStr × PyStr}
    (h : kv ∈ addCharToMap m c) :
    kv ∈ m ∨ (kv.2 = pyTrim c.name ∧ pyTrim c.name ≠ []) := by
  unfold addCharToMap at h
  by_cases hn : pyTrim c.name ≠ []
  · rw [if_pos hn] at h
    simp only [] at h
    cases hal : c.aliases with
    | none =>
      rw [hal] at h
      rcases List.mem_cons.mp h with heq | hmem
      · right; exact ⟨by rw [heq], hn⟩
      · exact Or.inl hmem
    | some als =>
      rw [hal] at h
      rcases aliasFold_mem h with hmem | hc
      · rcases List.mem_cons.mp hmem with heq | hmem'
        · right; exact ⟨by rw [heq], hn⟩
        · exact Or.inl hmem'
      · right; exact ⟨hc, hn⟩
  · rw [if_neg hn] at h
    exact Or.inl h

theorem buildNameMap_mem {roster : List CharacterListItem} {kv : PyStr × PyStr}
    (h : kv ∈ buildNameMap roster) :
    ∃ c ∈ roster, kv.2 = pyTrim c.name ∧ pyTrim c.name ≠ [] := by
  unfold buildNameMap at h
  suffices haux : ∀ (cs : List CharacterListItem) (m : NameMap),
      kv ∈ cs.foldl addCharToMap m →
      kv ∈ m ∨ ∃ c ∈ cs, kv.2 = pyTrim c.name ∧ pyTrim c.name ≠ [] by
    rcases haux roster [] h with hmem | hex
    · simp at hmem
    · exact hex
  intro cs
  induction cs with
  | nil => intro m hm; exact Or.inl hm
  | cons c rest ih =>
    intro m hm
    simp only [List.foldl_cons] at hm
    rcases ih _ hm with hmem | hex
    · rcases addCharToMap_mem hmem with hmem' | hc
      · exact Or.inl hmem'
      · exact Or.inr ⟨c, List.mem_cons_self c rest, hc⟩
    · rcases hex with ⟨c', hc', hp⟩
      exact Or.inr ⟨c', List.mem_cons_of_mem c hc', hp⟩

theorem dictGet_mem {m : NameMap} {k v : PyStr} (h : dictGet m k = some v) :
    ∃ kv ∈ m, kv.2 = v := by
  unfold dictGet at h
  cases hf : m.find? (fun kv => kv.1 = k) with
  | none => rw [hf] at h; simp at h
  | some kv =>
    rw [hf] at h
    exact ⟨kv, List.mem_of_find?_eq_some hf, by simpa using h⟩

theorem truthy_dictGet_canonical {roster : List CharacterListItem} {k v : PyStr}
    (h : truthy (dictGet (buildNameMap roster) k) = some v) :
    isCanonicalName roster v := by
  have hget : dictGet (buildNameMap roster) k = some v := by
    unfold truthy at h
    cases hg : dictGet (buildNameMap roster) k with
    | none => rw [hg] at h; simp at h
    | some w =>
      rw [hg] at h
      cases w with
      | nil => simp at h
      | cons a l => simpa using h
  obtain ⟨kv, hmem, hval⟩ := dictGet_mem hget
  obtain ⟨c, hc, hname, hne⟩ := buildNameMap_mem hmem
  exact ⟨c, hc, by rw [← hval, hname], by rw [← hval, hname]; exact hne⟩

theorem dedupStep_inv {roster : List CharacterListItem}
    {st : List (PyStr × PyStr) × List Relationship} {rel : Relationship}
    (hinv : DedupInv roster st) :
    DedupInv roster (dedupStep (buildNameMap roster) st rel) := by
  obtain ⟨hgood, hkey, hpw⟩ := hinv
  unfold dedupStep
  by_cases h0 : pyTrim rel.source = [] ∨ pyTrim rel.target = []
  · rw [if_pos h0]; exact ⟨hgood, hkey, hpw⟩
  · rw [if_neg h0]
    cases hs : truthy (dictGet (buildNameMap roster) (pyLower (pyTrim rel.source))) with
    | none => exact ⟨hgood, hkey, hpw⟩
    | some s =>
      cases ht : truthy (dictGet (buildNameMap roster) (pyLower (pyTrim rel.target))) with
      | none => exact ⟨hgood, hkey, hpw⟩
      | some t =>
        show DedupInv roster (dedupAccept st rel s t)
        unfold dedupAccept
        by_cases hst : s = t
        · rw [if_pos hst]; exact ⟨hgood, hkey, hpw⟩
        · rw [if_neg hst]
          by_cases hseen : sortPair (pyLower s) (pyLower t) ∈ st.1
          · rw [if_pos hseen]; exact ⟨hgood, hkey, hpw⟩
          · rw [if_neg hseen]
            have hcs : isCanonicalName roster s := truthy_dictGet_canonical hs
            have hct : isCanonicalName roster t := truthy_dictGet_canonical ht
            cases hv : validateRelationship { rel with source := s, target := t } with
            | none =>
              refine ⟨hgood, fun e he => List.mem_cons_of_mem _ (hkey e he), hpw⟩
            | some r =>
              have hr : r = { rel with source := s, target := t } := by
                unfold validateRelationship at hv
                split at hv
                · exact (Option.some.injEq _ _ ▸ hv).symm
                · exact absurd hv (by simp)
              have hrs : r.source = s := by rw [hr]
              have hrt : r.target = t := by rw [hr]
              have hrkey : edgeKey r = sortPair (pyLower s) (pyLower t) := by
                rw [edgeKey, hrs, hrt]
              constructor
              · intro e he
                rcases List.mem_append.mp he with he' | he'
                · exact hgood e he'
                · have : e = r := by simpa using he'
                  subst this
                  exact ⟨hrs ▸ hcs, hrt ▸ hct, by rw [hrs, hrt]; exact hst⟩
              constructor
              · intro e he
                rcases List.mem_append.mp he with he' | he'
                · exact List.mem_cons_of_mem _ (hkey e he')
                · have : e = r := by simpa using he'
                  subst this
                  rw [hrkey]
                  exact List.mem_cons_self _ _
              · rw [List.pairwise_append]
                refine ⟨hpw, by simp, ?_⟩
                intro e he e' he' hsame
                have : e' = r := by simpa using he'
                subst this
                have hek := samePair_edgeKey hsame
                rw [hrkey] at hek
                exact hseen (hek ▸ hkey e he)

theorem dedupFold_inv (roster : List CharacterListItem) (rels : List Relationship)
    (st : List (PyStr × PyStr) × List Relationship) (hinv : DedupInv roster st) :
    DedupInv roster (rels.foldl (dedupStep (buildNameMap roster)) st) := by
  induction rels generalizing st with
  | nil => exact hinv
  | cons rel rest ih =>
    simp only [List.foldl_cons]
    exact ih _ (dedupStep_inv hinv)

theorem selectLoop_some (q : PyStr) (yq : Option PyStr) (b : TMDBResult)
    (rs : List TMDBResult) :
    selectLoop q yq (some b) rs =
      match rs.find? (tmdbTier1 q yq) with
      | some x => some x
      | none => some b := by
  induction rs with
  | nil => rfl
  | cons r rest ih =>
    simp only [selectLoop]
    by_cases h1 : tmdbTier1 q yq r = true
    · rw [if_pos h1, List.find?_cons_of_pos _ h1]
    · rw [if_neg h1, List.find?_cons_of_neg _ (by simpa using h1)]
      have hc : (Option.isNone (some b) && (tmdbTier2 q r || tmdbTier3 q yq r)) = false := by
        simp
      rw [hc, if_neg (by simp)]
      exact ih

theorem selectLoop_none (q : PyStr) (yq : Option PyStr) (rs : List TMDBResult) :
    selectLoop q yq none rs =
      match rs.find? (tmdbTier1 q yq) with
      | some x => some x
      | none => rs.find? (fun r => tmdbTier2 q r || tmdbTier3 q yq r) := by
  induction rs with
  | nil => rfl
  | cons r rest ih =>
    simp only [selectLoop]
    by_cases h1 : tmdbTier1 q yq r = true
    · rw [if_pos h1, List.find?_cons_of_pos _ h1]
    · rw [if_neg h1, List.find?_cons_of_neg _ (by simpa using h1)]
      by_cases h23 : (tmdbTier2 q r || tmdbTier3 q yq r) = true
      · have hc : (Option.isNone (none : Option TMDBResult) &&
            (tmdbTier2 q r || tmdbTier3 q yq r)) = true := by simp [h23]
        have hfind : List.find? (fun r => tmdbTier2 q r || tmdbTier3 q yq r) (r :: rest)
            = some r := by
          rw [List.find?_cons]
          simp [h23]
        rw [hc, if_pos rfl, selectLoop_some, hfind]
      · have hc : (Option.isNone (none : Option TMDBResult) &&
            (tmdbTier2 q r || tmdbTier3 q yq r)) = false := by
          simpa using h23
        have h23f : (tmdbTier2 q r || tmdbTier3 q yq r) = false := by simpa using h23
        have hfind : List.find? (fun r => tmdbTier2 q r || tmdbTier3 q yq r) (r :: rest)
            = List.find? (fun r => tmdbTier2 q r || tmdbTier3 q yq r) rest := by
          rw [List.find?_cons]
          simp [h23f]
        rw [hc, if_neg (by simp), ih, hfind]

/-! ### Claim theorems -/
theorem strip_code_fences_nil : strip_code_fences [] = [] := rfl

theorem parse_eq_of_ne {jL yL : PyStr → Option PyValue} {s : PyStr}
    (h0 : s ≠ []) (h1 : strip_code_fences s ≠ []) :
    parse_llm_output_to_dict jL yL s =
      match jL (strip_code_fences s) with
      | some (PyValue.vdict m) => some m
      | _ =>
        match yL (strip_code_fences s) with
        | some (PyValue.vdict m) => some m
        | _ => none := by
  simp [parse_llm_output_to_dict, h0, h1]

/-- C9: fence stripping is idempotent — `strip_code_fences` applied to its
own output returns it unchanged — and consequently normalizing the stripped
text yields the same result as normalizing the original text (for every
input, which subsumes texts wrapped in 0, 1 or 2 fence layers with optional
language tags). -/
theorem claim_C9 :
    (∀ t : PyStr, strip_code_fences (strip_code_fences t) = strip_code_fences t) ∧
    (∀ (jsonLoads yamlLoads : PyStr → Option PyValue) (t : PyStr),
      parse_llm_output_to_dict jsonLoads yamlLoads (strip_code_fences t) =
        parse_llm_output_to_dict jsonLoads yamlLoads t) :=
  ⟨strip_code_fences_idem, parse_strip_invariant⟩

/-- C8: the response normalizer returns the parsed mapping when the
fence-stripped text parses as strict JSON to a mapping; otherwise returns
the parsed mapping when it parses as YAML to a mapping; returns `None` when
neither parse yields a mapping, and for empty input.  The two library
parsers are abstract parameters constrained only to reject the empty string
as a mapping (true of both `json.loads` and `yaml.safe_load`). -/
theorem claim_C8 (jsonLoads yamlLoads : PyStr → Option PyValue) (s : PyStr)
    (hj0 : ∀ m, jsonLoads [] ≠ some (PyValue.vdict m))
    (hy0 : ∀ m, yamlLoads [] ≠ some (PyValue.vdict m)) :
    (∀ m, jsonLoads (strip_code_fences s) = some (PyValue.vdict m) →
      parse_llm_output_to_dict jsonLoads yamlLoads s = some m) ∧
    ((∀ m, jsonLoads (strip_code_fences s) ≠ some (PyValue.vdict m)) →
      ∀ m, yamlLoads (strip_code_fences s) = some (PyValue.vdict m) →
        parse_llm_output_to_dict jsonLoads yamlLoads s = some m) ∧
    ((∀ m, jsonLoads (strip_code_fences s) ≠ some (PyValue.vdict m)) →
      (∀ m, yamlLoads (strip_code_fences s) ≠ some (PyValue.vdict m)) →
      parse_llm_output_to_dict jsonLoads yamlLoads s = none) ∧
    parse_llm_output_to_dict jsonLoads yamlLoads [] = none := by
  refine ⟨?_, ?_, ?_, rfl⟩
  · intro m hm
    by_cases h0 : s = []
    · rw [h0, strip_code_fences_nil] at hm
      exact absurd hm (hj0 m)
    · by_cases h1 : strip_code_fences s = []
      · rw [h1] at hm
        exact absurd hm (hj0 m)
      · rw [parse_eq_of_ne h0 h1, hm]
  · intro hjne m hym
    by_cases h0 : s = []
    · rw [h0, strip_code_fences_nil] at hym
      exact absurd hym (hy0 m)
    · by_cases h1 : strip_code_fences s = []
      · rw [h1] at hym
        exact absurd hym (hy0 m)
      · rw [parse_eq_of_ne h0 h1]
        cases hv : jsonLoads (strip_code_fences s) with
        | none => rw [hym]
        | some v =>
          cases v with
          | vdict m' => exact absurd hv (hjne m')
          | vnone => rw [hym]
          | vbool b => rw [hym]
          | vint n => rw [hym]
          | vstr s' => rw [hym]
          | vlist xs => rw [hym]
  · intro hjne hyne
    by_cases h0 : s = []
    · rw [h0]
      rfl
    · by_cases h1 : strip_code_fences s = []
      · simp [parse_llm_output_to_dict, h0, h1]
      · rw [parse_eq_of_ne h0 h1]
        cases hv : jsonLoads (strip_code_fences s) with
        | none =>
          cases hy : yamlLoads (strip_code_fences s) with
          | none => rfl
          | some w =>
            cases w with
            | vdict m' => exact absurd hy (hyne m')
            | vnone => rfl
            | vbool b => rfl
            | vint n => rfl
            | vstr s' => rfl
            | vlist xs => rfl
        | some v =>
          cases v with
          | vdict m' => exact absurd hv (hjne m')
          | vnone =>
            cases hy : yamlLoads (strip_code_fences s) with
            | none => rfl
            | some w =>
              cases w with
              | vdict m' => exact absurd hy (hyne m')
              | vnone => rfl
              | vbool b => rfl
              | vint n => rfl
              | vstr s' => rfl
              | vlist xs => rfl
          | vbool b =>
            cases hy : yamlLoads (strip_code_fences s) with
            | none => rfl
            | some w =>
              cases w with
              | vdict m' => exact absurd hy (hyne m')
              | vnone => rfl
              | vbool b' => rfl
              | vint n => rfl
              | vstr s' => rfl
              | vlist xs => rfl
          | vint n =>
            cases hy : yamlLoads (strip_code_fences s) with
            | none => rfl
            | some w =>
              cases w with
              | vdict m' => exact absurd hy (hyne m')
              | vnone => rfl
              | vbool b => rfl
              | vint n' => rfl
              | vstr s' => rfl
              | vlist xs => rfl
          | vstr s' =>
            cases hy : yamlLoads (strip_code_fences s) with
            | none => rfl
            | some w =>
              cases w with
              | vdict m' => exact absurd hy (hyne m')
              | vnone => rfl
              | vbool b => rfl
              | vint n => rfl
              | vstr s'' => rfl
              | vlist xs => rfl
          | vlist xs =>
            cases hy : yamlLoads (strip_code_fences s) with
            | none => rfl
            | some w =>
              cases w with
              | vdict m' => exact absurd hy (hyne m')
              | vnone => rfl
              | vbool b => rfl
              | vint n => rfl
              | vstr s' => rfl
              | vlist xs' => rfl

theorem claim_C8_witness :
    parse_llm_output_to_dict c8JsonStub c8YamlStub "a".toList =
      some [("k".toList, PyValue.vnone)] :=
  (claim_C8 c8JsonStub c8YamlStub "a".toList
    (fun m h => by
      rw [show c8JsonStub [] = none from rfl] at h
      exact Option.noConfusion h)
    (fun m h => by
      rw [show c8YamlStub [] = none from rfl] at h
      exact Option.noConfusion h)).1
    [("k".toList, PyValue.vnone)] (by rfl)

theorem aliasFold_ne_nil {canonical : PyStr} {als : List PyStr} {acc : NameMap}
    (h : acc ≠ []) :
    als.foldl
      (fun acc a => if pyTrim a ≠ [] then dictSet acc (pyLower (pyTrim a)) canonical else acc)
      acc ≠ [] := by
  induction als generalizing acc with
  | nil => exact h
  | cons a rest ih =>
    simp only [List.foldl_cons]
    apply ih
    by_cases ha : pyTrim a ≠ []
    · rw [if_pos ha]; exact List.cons_ne_nil _ _
    · rw [if_neg ha]; exact h

theorem addCharToMap_ne_nil_of_name {m : NameMap} {c : CharacterListItem}
    (hc : pyTrim c.name ≠ []) : addCharToMap m c ≠ [] := by
  unfold addCharToMap
  rw [if_pos hc]
  cases c.aliases with
  | none => exact List.cons_ne_nil _ _
  | some als => exact aliasFold_ne_nil (List.cons_ne_nil _ _)

theorem addCharToMap_ne_nil_of_m {m : NameMap} {c : CharacterListItem}
    (hm : m ≠ []) : addCharToMap m c ≠ [] := by
  by_cases hc : pyTrim c.name ≠ []
  · exact addCharToMap_ne_nil_of_name hc
  · unfold addCharToMap
    rw [if_neg hc]
    exact hm

theorem buildNameMap_ne_nil {roster : List CharacterListItem}
    (h : ∃ c ∈ roster, pyTrim c.name ≠ []) : buildNameMap roster ≠ [] := by
  unfold buildNameMap
  suffices haux : ∀ (cs : List CharacterListItem) (m : NameMap),
      ((∃ c ∈ cs, pyTrim c.name ≠ []) ∨ m ≠ []) → cs.foldl addCharToMap m ≠ [] by
    exact haux roster [] (Or.inl h)
  intro cs
  induction cs with
  | nil =>
    intro m hm
    rcases hm with hex | hne
    · simp at hex
    · exact hne
  | cons c rest ih =>
    intro m hm
    simp only [List.foldl_cons]
    rcases hm with hex | hne
    · rcases hex with ⟨c', hc', hname⟩
      rcases List.mem_cons.mp hc' with heq | hmem
      · exact ih _ (Or.inr (addCharToMap_ne_nil_of_name (heq ▸ hname)))
      · exact ih _ (Or.inl ⟨c', hmem, hname⟩)
    · exact ih _ (Or.inr (addCharToMap_ne_nil_of_m hne))

/-- C4: with at least one named roster character, every returned edge is
canonical on both endpoints, is not a self-edge, and no unordered character
pair appears twice. -/
theorem claim_C4 (roster : List CharacterListItem) (rels : List Relationship)
    (h : ∃ c ∈ roster, pyTrim c.name ≠ []) :
    (∀ e ∈ deduplicate_and_normalize_relationships roster rels,
      isCanonicalName roster e.source ∧ isCanonicalName roster e.target ∧
        e.source ≠ e.target) ∧
    (deduplicate_and_normalize_relationships roster rels).Pairwise
      (fun e₁ e₂ => ¬ SamePair e₁ e₂) := by
  have hroster : roster ≠ [] := by
    rcases h with ⟨c, hc, _⟩
    exact List.ne_nil_of_mem hc
  have hnm : buildNameMap roster ≠ [] := buildNameMap_ne_nil h
  unfold deduplicate_and_normalize_relationships
  rw [if_neg hroster]
  by_cases hrels : rels = []
  · rw [if_pos hrels]
    exact ⟨by simp, by simp⟩
  · rw [if_neg hrels, if_neg hnm]
    have hinv := dedupFold_inv roster rels ([], [])
      ⟨by simp, by simp, by simp⟩
    exact ⟨hinv.1, hinv.2.2⟩

theorem claim_C4_witness :
    (∃ c ∈ c4Roster, pyTrim c.name ≠ []) ∧
    ((∀ e ∈ deduplicate_and_normalize_relationships c4Roster c4Edges,
      isCanonicalName c4Roster e.source ∧ isCanonicalName c4Roster e.target ∧
        e.source ≠ e.target) ∧
    (deduplicate_and_normalize_relationships c4Roster c4Edges).Pairwise
      (fun e₁ e₂ => ¬ SamePair e₁ e₂)) :=
  ⟨by decide, claim_C4 c4Roster c4Edges (by decide)⟩

/-- C1 counterexample: the claim predicts that the directed edges `A -> B`
and `B -> A` are both kept, but the code deduplicates by unordered pair only
and drops the second: the output is exactly `[A -> B]`. -/
theorem claim_C1_counterexample :
    deduplicate_and_normalize_relationships c1Roster [c1EdgeAB, c1EdgeBA] = [c1EdgeAB] := by
  decide

theorem dedupStep_eq {nm : NameMap} {st : List (PyStr × PyStr) × List Relationship}
    {e : Relationship} {s t : PyStr}
    (hsrc : pyTrim e.source ≠ []) (htgt : pyTrim e.target ≠ [])
    (hs : truthy (dictGet nm (pyLower (pyTrim e.source))) = some s)
    (ht : truthy (dictGet nm (pyLower (pyTrim e.target))) = some t) :
    dedupStep nm st e = dedupAccept st e s t := by
  unfold dedupStep
  rw [if_neg (by tauto), hs, ht]

theorem validateRelationship_directed (e : Relationship) (s t : PyStr) (b : Bool) :
    validateRelationship { e with source := s, target := t, directed := b } =
      (validateRelationship { e with source := s, target := t }).map
        (fun r => { r with directed := b }) := by
  unfold validateRelationship
  dsimp only
  split
  · rfl
  · rfl

theorem dedupAccept_spec (st : List (PyStr × PyStr) × List Relationship)
    (e : Relationship) (s t : PyStr) (hst : s ≠ t) :
    ((dedupAccept st e s t).2 ≠ st.2 ↔
      sortPair (pyLower s) (pyLower t) ∉ st.1 ∧
        (validateRelationship { e with source := s, target := t }).isSome = true) ∧
    (sortPair (pyLower s) (pyLower t) ∉ st.1 →
      (dedupAccept st e s t).1 = sortPair (pyLower s) (pyLower t) :: st.1) := by
  unfold dedupAccept
  rw [if_neg hst]
  by_cases hseen : sortPair (pyLower s) (pyLower t) ∈ st.1
  · rw [if_pos hseen]
    constructor
    · simp [hseen]
    · intro hns
      exact absurd hseen hns
  · rw [if_neg hseen]
    cases hv : validateRelationship { e with source := s, target := t } with
    | some r =>
      constructor
      · simp [hseen]
      · intro _
        rfl
    | none =>
      constructor
      · simp [hseen]
      · intro _
        rfl

theorem dedupAccept_directed (st : List (PyStr × PyStr) × List Relationship)
    (e : Relationship) (s t : PyStr) (b : Bool) :
    (dedupAccept st { e with directed := b } s t).1 = (dedupAccept st e s t).1 ∧
    (dedupAccept st { e with directed := b } s t).2.length =
      (dedupAccept st e s t).2.length := by
  unfold dedupAccept
  by_cases hst : s = t
  · rw [if_pos hst, if_pos hst]
    exact ⟨rfl, rfl⟩
  · rw [if_neg hst, if_neg hst]
    by_cases hseen : sortPair (pyLower s) (pyLower t) ∈ st.1
    · rw [if_pos hseen, if_pos hseen]
      exact ⟨rfl, rfl⟩
    · rw [if_neg hseen, if_neg hseen]
      dsimp only
      rw [validateRelationship_directed]
      cases hv : validateRelationship { e with source := s, target := t } with
      | some r => exact ⟨rfl, by simp⟩
      | none => exact ⟨rfl, rfl⟩

/-- C1 amended: for an edge whose trimmed endpoints resolve to distinct
canonical names, acceptance is governed by the *unordered* pair key alone —
the edge is accepted exactly when that key is unseen (and the edge
re-validates), acceptance marks the unordered key (not an ordered one) as
seen, and the `directed` flag influences neither the seen-set nor the number
of accepted edges.  Consequently of two directed edges `A -> B` and `B -> A`
only the first is kept. -/
theorem claim_C1_amended (nm : NameMap) (st : List (PyStr × PyStr) × List Relationship)
    (e : Relationship) (s t : PyStr)
    (hsrc : pyTrim e.source ≠ []) (htgt : pyTrim e.target ≠ [])
    (hs : truthy (dictGet nm (pyLower (pyTrim e.source))) = some s)
    (ht : truthy (dictGet nm (pyLower (pyTrim e.target))) = some t)
    (hst : s ≠ t) :
    ((dedupStep nm st e).2 ≠ st.2 ↔
      sortPair (pyLower s) (pyLower t) ∉ st.1 ∧
        (validateRelationship { e with source := s, target := t }).isSome = true) ∧
    (sortPair (pyLower s) (pyLower t) ∉ st.1 →
      (dedupStep nm st e).1 = sortPair (pyLower s) (pyLower t) :: st.1) ∧
    (∀ b : Bool,
      (dedupStep nm st { e with directed := b }).1 = (dedupStep nm st e).1 ∧
      (dedupStep nm st { e with directed := b }).2.length =
        (dedupStep nm st e).2.length) := by
  rw [dedupStep_eq hsrc htgt hs ht]
  obtain ⟨hiff, hmark⟩ := dedupAccept_spec st e s t hst
  refine ⟨hiff, hmark, ?_⟩
  intro b
  rw [dedupStep_eq (e := { e with directed := b }) hsrc htgt hs ht]
  exact dedupAccept_directed st e s t b

theorem claim_C1_amended_witness :
    truthy (dictGet (buildNameMap c1Roster) (pyLower (pyTrim c1EdgeAB.source)))
        = some "A".toList ∧
    (dedupStep (buildNameMap c1Roster) ([], []) c1EdgeAB).1
        = [sortPair (pyLower "A".toList) (pyLower "B".toList)] :=
  ⟨by decide,
    (claim_C1_amended (buildNameMap c1Roster) ([], []) c1EdgeAB "A".toList "B".toList
      (by decide) (by decide) (by decide) (by decide) (by decide)).2.1
      (by decide)⟩

/-- C2 counterexample: for an existing movie with field-update policy
`["analytical_data"]` (the group name, as the claim words it), the
analytical gate is closed and `should_update_field_local` rejects every
analytical field — the Big Five profile is *not* recomputed and keeps its
previous value, contradicting the claim. -/
theorem claim_C2_counterexample :
    fieldRecomputed (groupFields "analytical_data".toList) false
        ["analytical_data".toList] "character_profile_big5".toList = false ∧
    (∀ {α : Type} (oldV newV : α),
      mergedFieldValue
        (fieldRecomputed (groupFields "analytical_data".toList) false
          ["analytical_data".toList] "character_profile_big5".toList) oldV newV = oldV) := by
  refine ⟨by decide, ?_⟩
  intro α oldV newV
  rw [show fieldRecomputed (groupFields "analytical_data".toList) false
      ["analytical_data".toList] "character_profile_big5".toList = false by decide]
  rfl

/-- C2 amended: the `fields_to_update` policy list names individual schema
fields, not enricher-group names.  Listing the five analytical field names
recomputes exactly the analytical fields and leaves the initial-data and
character/relationship fields untouched; the literal group name
`"analytical_data"` matches nothing, so every field keeps its previous
value; and for a new movie every field is recomputed regardless of the
policy list. -/
theorem claim_C2_amended :
    ((groupFields "analytical_data".toList).all
      (fun f => fieldRecomputed (groupFields "analytical_data".toList) false
        (groupFields "analytical_data".toList) f) = true) ∧
    ((groupFields "initial_data".toList).all
      (fun f => !fieldRecomputed (groupFields "initial_data".toList) false
        (groupFields "analytical_data".toList) f) = true) ∧
    ((groupFields "characters_and_relations".toList).all
      (fun f => !fieldRecomputed charRelGateFields false
        (groupFields "analytical_data".toList) f) = true) ∧
    (∀ (gate_fields cfg : List PyStr) (field_name : PyStr),
      fieldRecomputed gate_fields true cfg field_name = true) ∧
    (∀ field_name : PyStr,
      fieldRecomputed (groupFields "analytical_data".toList) false
        ["analytical_data".toList] field_name = false) ∧
    (∀ field_name : PyStr,
      fieldRecomputed (groupFields "initial_data".toList) false
        ["analytical_data".toList] field_name = false) ∧
    (∀ field_name : PyStr,
      fieldRecomputed charRelGateFields false
        ["analytical_data".toList] field_name = false) := by
  refine ⟨by decide, by decide, by decide, ?_, ?_, ?_, ?_⟩
  · intro gate_fields cfg field_name
    rfl
  · intro field_name
    unfold fieldRecomputed
    rw [show enricherGateRuns false ["analytical_data".toList]
      (groupFields "analytical_data".toList) = false by decide]
    rfl
  · intro field_name
    unfold fieldRecomputed
    rw [show enricherGateRuns false ["analytical_data".toList]
      (groupFields "initial_data".toList) = false by decide]
    rfl
  · intro field_name
    unfold fieldRecomputed
    rw [show enricherGateRuns false ["analytical_data".toList]
      charRelGateFields = false by decide]
    rfl

/-- C3 evaluation: a working record whose whole Big Five profile is `None`
and whose every other field is valid fails `MovieEntry.model_validate`
(`character_profile_big5` is declared required, not `Optional`), so the
record is not persisted — although the identical record with a well-formed
profile validates.  The claim (and spec §8.10) says validation still
succeeds; the orchestrator's own comment at line 437 fills the analytical
fields with `None` expressly "for MovieEntry validation". -/
theorem claim_C3_eval :
    validateMovieEntry (c3Working none) = none ∧
    (validateMovieEntry (c3Working (some c3Big5))).isSome = true := by
  constructor
  · rfl
  · rfl

theorem pyDictGet_setValue (d : PyDict) (k : PyStr) (v : PyValue) :
    pyDictGet (pyDictSetValue d k v) k = some v := by
  induction d with
  | nil => simp [pyDictGet, pyDictSetValue, List.find?]
  | cons kv rest ih =>
    by_cases hk : kv.1 = k
    · simp [pyDictSetValue, hk, pyDictGet, List.find?]
    · simp only [pyDictSetValue, hk, if_neg, if_false]
      simp only [pyDictGet, List.find?]
      rw [show (decide (kv.1 = k)) = false by simp [hk]]
      exact ih

theorem threeParts_isSome (a b c : Option PyValue) :
    (threeParts a b c).isSome = true ↔ a.isSome = true ∧ b.isSome = true ∧ c.isSome = true := by
  cases a <;> cases b <;> cases c <;> simp [threeParts]

/-- C5 counterexample: when the raw `recommendations` value is present but
not a list, the transformed field is the *empty list*, not `null` as the
claim states. -/
theorem claim_C5_counterexample :
    pyDictGet (transformRecommendationsField c5LitEval c5DataNonList)
        "recommendations".toList = some (PyValue.vlist []) ∧
    pyDictGet (transformRecommendationsField c5LitEval c5DataNonList)
        "recommendations".toList ≠ some PyValue.vnone := by
  constructor
  · rfl
  · intro h
    rw [show pyDictGet (transformRecommendationsField c5LitEval c5DataNonList)
        "recommendations".toList = some (PyValue.vlist []) from rfl] at h
    injection h with h2
    exact PyValue.noConfusion h2

/-- C5 amended: an entry reducible to three non-null parts (an object with
non-null `title`/`year`/`explanation` values, a 3-element list of non-null
parts, or a string literal-parsing to such a list) is kept and every other
entry is dropped individually; a present list value maps to the list of its
kept entries; and a present non-list value makes the output field the empty
list (not null). -/
theorem claim_C5_amended (literalEval : PyStr → Option PyValue) :
    (∀ item, (transformRecItem literalEval item).isSome = true ↔
      ReducibleToThreeParts literalEval item) ∧
    (∀ (data : PyDict) (items : List PyValue),
      pyDictGet data "recommendations".toList = some (PyValue.vlist items) →
      pyDictGet (transformRecommendationsField literalEval data)
          "recommendations".toList
        = some (PyValue.vlist (items.filterMap (transformRecItem literalEval)))) ∧
    (∀ (data : PyDict) (v : PyValue),
      pyDictGet data "recommendations".toList = some v →
      (∀ items, v ≠ PyValue.vlist items) →
      pyDictGet (transformRecommendationsField literalEval data)
          "recommendations".toList = some (PyValue.vlist [])) := by
  refine ⟨?_, ?_, ?_⟩
  · intro item
    cases item with
    | vdict d =>
      simp only [transformRecItem, threeParts_isSome, ReducibleToThreeParts]
      constructor
      · intro ⟨h1, h2, h3⟩
        exact Or.inl ⟨d, rfl, h1, h2, h3⟩
      · intro h
        rcases h with ⟨d', hd', h1, h2, h3⟩ | ⟨a, b, c, habs, _⟩ | ⟨s, a, b, c, habs, _⟩
        · cases hd'
          exact ⟨h1, h2, h3⟩
        · exact PyValue.noConfusion habs
        · exact PyValue.noConfusion habs
    | vlist xs =>
      match xs with
      | [] =>
        simp only [transformRecItem, ReducibleToThreeParts]
        constructor
        · intro h
          simp at h
        · intro h
          rcases h with ⟨d', habs, _⟩ | ⟨a, b, c, habs, _⟩ | ⟨s, a, b, c, habs, _⟩
          · exact PyValue.noConfusion habs
          · injection habs with h2
            exact List.noConfusion h2
          · exact PyValue.noConfusion habs
      | [a] =>
        simp only [transformRecItem, ReducibleToThreeParts]
        constructor
        · intro h
          simp at h
        · intro h
          rcases h with ⟨d', habs, _⟩ | ⟨x, y, z, habs, _⟩ | ⟨s, x, y, z, habs, _⟩
          · exact PyValue.noConfusion habs
          · injection habs with h2
            injection h2 with _ h3
            exact List.noConfusion h3
          · exact PyValue.noConfusion habs
      | [a, b] =>
        simp only [transformRecItem, ReducibleToThreeParts]
        constructor
        · intro h
          simp at h
        · intro h
          rcases h with ⟨d', habs, _⟩ | ⟨x, y, z, habs, _⟩ | ⟨s, x, y, z, habs, _⟩
          · exact PyValue.noConfusion habs
          · injection habs with h2
            injection h2 with _ h3
            injection h3 with _ h4
            exact List.noConfusion h4
          · exact PyValue.noConfusion habs
      | [a, b, c] =>
        simp only [transformRecItem, threeParts_isSome, ReducibleToThreeParts]
        constructor
        · intro ⟨h1, h2, h3⟩
          exact Or.inr (Or.inl ⟨a, b, c, rfl, h1, h2, h3⟩)
        · intro h
          rcases h with ⟨d', habs, _⟩ | ⟨x, y, z, hxs, h1, h2, h3⟩ | ⟨s, x, y, z, habs, _⟩
          · exact PyValue.noConfusion habs
          · injection hxs with h2
            injection h2 with ha h3
            injection h3 with hb h4
            injection h4 with hc _
            subst ha; subst hb; subst hc
            exact ⟨h1, h2, h3⟩
          · exact PyValue.noConfusion habs
      | a :: b :: c :: d :: rest =>
        simp only [transformRecItem, ReducibleToThreeParts]
        constructor
        · intro h
          simp at h
        · intro h
          rcases h with ⟨d', habs, _⟩ | ⟨x, y, z, habs, _⟩ | ⟨s, x, y, z, habs, _⟩
          · exact PyValue.noConfusion habs
          · injection habs with h2
            injection h2 with _ h3
            injection h3 with _ h4
            injection h4 with _ h5
            exact List.noConfusion h5
          · exact PyValue.noConfusion habs
    | vstr s =>
      simp only [transformRecItem, ReducibleToThreeParts]
      constructor
      · intro h
        cases hle : literalEval s with
        | none => rw [hle] at h; simp at h
        | some w =>
          rw [hle] at h
          match w with
          | PyValue.vnone => simp at h
          | PyValue.vbool b => simp at h
          | PyValue.vint n => simp at h
          | PyValue.vstr s' => simp at h
          | PyValue.vdict d => simp at h
          | PyValue.vlist xs =>
            match xs with
            | [] => simp at h
            | [a] => simp at h
            | [a, b] => simp at h
            | [a, b, c] =>
              rw [threeParts_isSome] at h
              exact Or.inr (Or.inr ⟨s, a, b, c, rfl, hle, h.1, h.2.1, h.2.2⟩)
            | a :: b :: c :: d :: rest => simp at h
      · intro h
        rcases h with ⟨d', habs, _⟩ | ⟨x, y, z, habs, _⟩ | ⟨s', x, y, z, hs', hle, h1, h2, h3⟩
        · exact PyValue.noConfusion habs
        · exact PyValue.noConfusion habs
        · injection hs' with h2
          subst h2
          rw [hle, threeParts_isSome]
          exact ⟨h1, h2, h3⟩
    | vnone =>
      simp only [transformRecItem, ReducibleToThreeParts]
      constructor
      · intro h
        simp at h
      · intro h
        rcases h with ⟨d', habs, _⟩ | ⟨x, y, z, habs, _⟩ | ⟨s, x, y, z, habs, _⟩
        all_goals exact PyValue.noConfusion habs
    | vbool b =>
      simp only [transformRecItem, ReducibleToThreeParts]
      constructor
      · intro h
        simp at h
      · intro h
        rcases h with ⟨d', habs, _⟩ | ⟨x, y, z, habs, _⟩ | ⟨s, x, y, z, habs, _⟩
        all_goals exact PyValue.noConfusion habs
    | vint n =>
      simp only [transformRecItem, ReducibleToThreeParts]
      constructor
      · intro h
        simp at h
      · intro h
        rcases h with ⟨d', habs, _⟩ | ⟨x, y, z, habs, _⟩ | ⟨s, x, y, z, habs, _⟩
        all_goals exact PyValue.noConfusion habs
  · intro data items hget
    unfold transformRecommendationsField
    rw [hget]
    exact pyDictGet_setValue data "recommendations".toList _
  · intro data v hget hnl
    unfold transformRecommendationsField
    rw [hget]
    cases v with
    | vlist items => exact absurd rfl (hnl items)
    | vnone => exact pyDictGet_setValue data "recommendations".toList _
    | vbool b => exact pyDictGet_setValue data "recommendations".toList _
    | vint n => exact pyDictGet_setValue data "recommendations".toList _
    | vstr s => exact pyDictGet_setValue data "recommendations".toList _
    | vdict d => exact pyDictGet_setValue data "recommendations".toList _

theorem claim_C5_amended_witness :
    pyDictGet (transformRecommendationsField c5LitEval c5WitnessData)
        "recommendations".toList
      = some (PyValue.vlist [mkRecDict (PyValue.vstr "T".toList) (PyValue.vint 1999)
          (PyValue.vstr "E".toList)]) := by
  have h := (claim_C5_amended c5LitEval).2.1 c5WitnessData [c5GoodItem, c5BadItem] rfl
  rw [h]
  rfl

/-- C6 counterexample: searching `ab` with year `2000`, a year-matching
substring candidate (priority 3) that precedes an exact-title candidate
(priority 2) wins; reversing the provider order changes the winner.  The
selection is therefore neither order-independent nor strictly prioritized as
the claim states. -/
theorem claim_C6_counterexample :
    pickBestResult "ab".toList (some "2000".toList) [c6Tier3First, c6Tier2Later]
        = some c6Tier3First ∧
    pickBestResult "ab".toList (some "2000".toList) [c6Tier2Later, c6Tier3First]
        = some c6Tier2Later ∧
    tmdbTier2 (pyLower "ab".toList) c6Tier2Later = true ∧
    tmdbTier2 (pyLower "ab".toList) c6Tier3First = false ∧
    tmdbTier3 (pyLower "ab".toList) (validatedYear (some "2000".toList)) c6Tier3First
        = true := by
  decide

/-- C6 amended: the selection takes the *first* candidate matching
priority 1 (case-insensitive title and exact year) if any — scanning in
provider order with an early break — otherwise the *earliest* candidate
matching priority 2 (exact title) or priority 3 (year match with substring
containment), whichever comes first in provider order, and otherwise the
provider's top-ranked candidate. -/
theorem claim_C6_amended (movie_title : PyStr) (year : Option PyStr)
    (results : List TMDBResult) :
    pickBestResult movie_title year results =
      match results.find? (tmdbTier1 (pyLower movie_title) (validatedYear year)) with
      | some x => some x
      | none =>
        match results.find? (fun r => tmdbTier2 (pyLower movie_title) r ||
            tmdbTier3 (pyLower movie_title) (validatedYear year) r) with
        | some x => some x
        | none => results.head? := by
  unfold pickBestResult
  rw [selectLoop_none]
  cases h1 : results.find? (tmdbTier1 (pyLower movie_title) (validatedYear year)) with
  | some x => rfl
  | none =>
    cases h2 : results.find? (fun r => tmdbTier2 (pyLower movie_title) r ||
        tmdbTier3 (pyLower movie_title) (validatedYear year) r) with
    | some x => rfl
    | none => rfl

/-- C7: a candidate whose final validation fails (`none` result) leaves the
in-memory collection untouched and triggers no file write; every validated
candidate triggers exactly one rewrite, whose content is the entire updated
collection serialized; and a failing candidate anywhere in the run is a
no-op — the remaining candidates are processed as if it were absent. -/
theorem claim_C7 :
    (∀ (st : List MovieEntry × List (List YValue)) (is_existing : Bool),
      processCandidate st is_existing none = st) ∧
    (∀ (st : List MovieEntry × List (List YValue)) (is_existing : Bool) (e : MovieEntry),
      (processCandidate st is_existing (some e)).2 =
        st.2 ++ [dumpCollection (processCandidate st is_existing (some e)).1]) ∧
    (∀ (st : List MovieEntry × List (List YValue))
        (xs ys : List (Bool × Option MovieEntry)) (b : Bool),
      runCandidates st (xs ++ (b, none) :: ys) = runCandidates st (xs ++ ys)) := by
  refine ⟨fun st b => rfl, fun st b e => rfl, ?_⟩
  intro st xs ys b
  unfold runCandidates
  rw [List.foldl_append, List.foldl_append, List.foldl_cons]
  rfl

theorem noNullMap_append (a b : List (PyStr × YValue)) :
    noNullMap (a ++ b) = (noNullMap a && noNullMap b) := by
  induction a with
  | nil => simp [noNullMap]
  | cons kv rest ih =>
    obtain ⟨k, v⟩ := kv
    simp [noNullMap, ih, Bool.and_assoc]

theorem noNullList_map {α : Type} (f : α → YValue) (h : ∀ x, noNull (f x) = true)
    (l : List α) : noNullList (l.map f) = true := by
  induction l with
  | nil => rfl
  | cons x rest ih => simp [noNullList, h x, ih]

theorem noNullMap_map {α : Type} (key : α → PyStr) (f : α → YValue)
    (h : ∀ x, noNull (f x) = true) (l : List α) :
    noNullMap (l.map (fun x => (key x, f x))) = true := by
  induction l with
  | nil => rfl
  | cons x rest ih => simp [noNullMap, h x, ih]

theorem noNullMap_optKey {α : Type} (k : String) (o : Option α) (f : α → YValue)
    (h : ∀ x, noNull (f x) = true) :
    noNullMap (optKey k (o.map f)) = true := by
  cases o with
  | none => rfl
  | some x => simp [optKey, noNullMap, h x]

theorem noNull_dumpYear (y : YearValue) : noNull (dumpYear y) = true := by
  cases y <;> rfl

theorem noNull_dumpRelatedMovie (r : RelatedMovie) : noNull (dumpRelatedMovie r) = true := by
  unfold dumpRelatedMovie
  show noNullMap _ = true
  rw [noNullMap_append]
  simp only [noNullMap, noNull, Bool.and_true, Bool.true_and]
  exact noNullMap_optKey "imdb_id" r.imdb_id YValue.ystr (fun x => rfl)

theorem noNull_dumpRecommendation (r : Recommendation) :
    noNull (dumpRecommendation r) = true := by
  unfold dumpRecommendation
  show noNullMap _ = true
  rw [noNullMap_append]
  simp only [noNullMap, noNull, Bool.and_true, Bool.true_and, noNull_dumpYear]
  exact noNullMap_optKey "imdb_id" r.imdb_id YValue.ystr (fun x => rfl)

theorem noNull_dumpMatchingTags (m : MatchingTags) :
    noNull (dumpMatchingTags m) = true := by
  unfold dumpMatchingTags
  show noNullMap _ = true
  refine noNullMap_optKey "tags" m.tags _ ?_
  intro tgs
  show noNullMap _ = true
  exact noNullMap_map Prod.fst (fun kv => YValue.ystr kv.2) (fun kv => rfl) tgs

theorem noNull_dumpGenreMix (g : GenreMix) : noNull (dumpGenreMix g) = true := by
  unfold dumpGenreMix
  show noNullMap _ = true
  simp only [noNullMap, noNull, Bool.and_true]
  exact noNullMap_map Prod.fst (fun kv => YValue.yint kv.2) (fun kv => rfl) g.genres

theorem noNull_dumpCharacterListItem (c : CharacterListItem) :
    noNull (dumpCharacterListItem c) = true := by
  unfold dumpCharacterListItem
  show noNullMap _ = true
  rw [noNullMap_append, noNullMap_append, noNullMap_append, noNullMap_append]
  have h1 : noNullMap (optKey "tmdb_person_id" (c.tmdb_person_id.map YValue.yint)) = true :=
    noNullMap_optKey _ _ _ (fun x => rfl)
  have h2 : noNullMap (optKey "aliases"
      (c.aliases.map (fun xs => YValue.ylist (xs.map YValue.ystr)))) = true :=
    noNullMap_optKey _ _ _ (fun xs => noNullList_map YValue.ystr (fun x => rfl) xs)
  have h3 : noNullMap (optKey "image_file" (c.image_file.map YValue.ystr)) = true :=
    noNullMap_optKey _ _ _ (fun x => rfl)
  simp [noNullMap, noNull, h1, h2, h3]

theorem noNull_dumpRelationship (r : Relationship) :
    noNull (dumpRelationship r) = true := rfl

theorem noNull_ystr (s : PyStr) : noNull (YValue.ystr s) = true := rfl

theorem noNull_yint (n : Int) : noNull (YValue.yint n) = true := rfl

theorem noNull_ybool (b : Bool) : noNull (YValue.ybool b) = true := rfl

theorem noNull_ylist (xs : List YValue) : noNull (YValue.ylist xs) = noNullList xs := rfl

theorem noNull_dumpBig5 (b : CharacterProfileBigFive) : noNull (dumpBig5 b) = true := rfl

theorem noNull_dumpMBTI (p : CharacterProfileMyersBriggs) : noNull (dumpMBTI p) = true := rfl

/-- C10: every record handed to the collection writer is serialized with
`exclude_none`, so the dumped tree of any validated `MovieEntry` contains no
`null` at any depth — fields that are `None` are absent from the persisted
record, never present-with-null. -/
theorem claim_C10 (e : MovieEntry) : noNull (dumpMovieEntry e) = true := by
  unfold dumpMovieEntry
  show noNullMap _ = true
  repeat rw [noNullMap_append]
  have htmdb : noNullMap (optKey "tmdb_movie_id" (e.tmdb_movie_id.map YValue.yint)) = true :=
    noNullMap_optKey _ _ _ (fun x => rfl)
  have himdb : noNullMap (optKey "imdb_id" (e.imdb_id.map YValue.ystr)) = true :=
    noNullMap_optKey _ _ _ (fun x => rfl)
  have hseq : noNullMap (optKey "sequel" (e.sequel.map dumpRelatedMovie)) = true :=
    noNullMap_optKey _ _ _ noNull_dumpRelatedMovie
  have hpre : noNullMap (optKey "prequel" (e.prequel.map dumpRelatedMovie)) = true :=
    noNullMap_optKey _ _ _ noNull_dumpRelatedMovie
  have hsoo : noNullMap (optKey "spin_off_of" (e.spin_off_of.map dumpRelatedMovie)) = true :=
    noNullMap_optKey _ _ _ noNull_dumpRelatedMovie
  have hso : noNullMap (optKey "spin_off" (e.spin_off.map dumpRelatedMovie)) = true :=
    noNullMap_optKey _ _ _ noNull_dumpRelatedMovie
  have hro : noNullMap (optKey "remake_of" (e.remake_of.map dumpRelatedMovie)) = true :=
    noNullMap_optKey _ _ _ noNull_dumpRelatedMovie
  have hr : noNullMap (optKey "remake" (e.remake.map dumpRelatedMovie)) = true :=
    noNullMap_optKey _ _ _ noNull_dumpRelatedMovie
  have hrecs : noNullMap (optKey "recommendations"
      (e.recommendations.map (fun l => YValue.ylist (l.map dumpRecommendation)))) = true :=
    noNullMap_optKey _ _ _
      (fun l => noNullList_map dumpRecommendation noNull_dumpRecommendation l)
  have hchars : noNullMap (optKey "character_list"
      (e.character_list.map (fun l => YValue.ylist (l.map dumpCharacterListItem)))) = true :=
    noNullMap_optKey _ _ _
      (fun l => noNullList_map dumpCharacterListItem noNull_dumpCharacterListItem l)
  have hrels : noNullMap (optKey "relationships"
      (e.relationships.map (fun l => YValue.ylist (l.map dumpRelationship)))) = true :=
    noNullMap_optKey _ _ _
      (fun l => noNullList_map dumpRelationship noNull_dumpRelationship l)
  have hcsq : noNullList (e.complex_search_queries.map YValue.ystr) = true :=
    noNullList_map YValue.ystr (fun x => rfl) e.complex_search_queries
  simp only [noNullMap, noNull_ystr, noNull_yint, noNull_ybool, noNull_ylist,
    htmdb, himdb, hseq, hpre, hsoo, hso, hro, hr, hrecs, hchars, hrels, hcsq,
    noNull_dumpBig5, noNull_dumpMBTI, noNull_dumpGenreMix, noNull_dumpMatchingTags,
    Bool.and_true, Bool.true_and, Bool.and_self]

end MovieData

